import Mathlib

/-!
Verification of the receipt-recognition pipeline of the split-bill
application.  The TypeScript sources under `services/api/src/receipt`
(line normalization, line reconstruction, sanity checks, auto-correction,
document cropping and the receipt-aware scan service) are shallowly
embedded as executable Lean definitions.  Money amounts are represented
as exact rationals (`ℚ`); every amount reaching the numeric string
operations (`toFixed(2)` and friends) at the modelled call sites is a
whole number of cents, for which the embedding below is exact.
Quantities are natural numbers (`parseInt` of a digit run).  JavaScript
strings are modelled as `List Char` / `String`; each regular expression
of the source is implemented as a dedicated scanner whose doc comment
cites the pattern it implements.  Division by zero follows the Lean
convention `x / 0 = 0`; at the guarded comparisons of the source this
yields the same branch outcomes as the JavaScript `Infinity` semantics
because every guard combines a lower and an upper bound.
-/

namespace SplitBill

set_option maxRecDepth 100000

-- The Batteries rational primitives are `@[irreducible]`, which blocks
-- evaluation by the `decide` tactic of concrete pipeline runs; proofs by
-- kernel reduction need them unfolded within this file.
attribute [local semireducible] Rat.mul Rat.add Rat.sub Rat.inv

/-- Whitespace test implementing the JavaScript character class `\s`
(restricted to the ASCII whitespace actually reachable from OCR lines). -/
def isWsC (c : Char) : Bool :=
  c = ' ' || c = '\t' || c = '\n' || c = '\r' || c = '\x0b' || c = '\x0c'

/-- Word character test implementing the JavaScript class `\w`
(used for `\b` word-boundary checks): ASCII alphanumeric or `_`. -/
def isWordC (c : Char) : Bool :=
  c.isAlphanum || c = '_'

/-- True when the given position (the list being the rest of the input)
is a word boundary after a word character, i.e. the next character is
absent or not a word character. -/
def notWordAt : List Char → Bool
  | [] => true
  | c :: _ => !isWordC c

/-- Value of a decimal digit run, as `parseInt` computes it. -/
def digitsVal (l : List Char) : ℕ :=
  l.foldl (fun a c => a * 10 + (c.toNat - '0'.toNat)) 0

/-- Implements `String.prototype.trim` (both ends). -/
def trimChars (s : List Char) : List Char :=
  ((s.dropWhile isWsC).reverse.dropWhile isWsC).reverse

/-- Implements the whitespace collapse of step 6 (every whitespace run
replaced by a single space): collapse every whitespace run to a
single space.  The boolean records whether the previous character was
whitespace. -/
def collapseWsAux : Bool → List Char → List Char
  | _, [] => []
  | prevWs, c :: rest =>
      if isWsC c then
        if prevWs then collapseWsAux true rest
        else ' ' :: collapseWsAux true rest
      else c :: collapseWsAux false rest

def collapseWs (s : List Char) : List Char := collapseWsAux false s

/-- Implements the quote-run removal of step 6: strip the leading and the
trailing run of double or single quote characters. -/
def stripQuoteRuns (s : List Char) : List Char :=
  let isQ : Char → Bool := fun c => c = '"' || c.toNat = 39
  ((s.dropWhile isQ).reverse.dropWhile isQ).reverse

/-! ### Step 1 of `normalizeOcrLine`: quantity-token fixes

Each fix is a global bounded replace `\b…\b` with a fixed replacement.
The matcher returns the number of characters the pattern consumes at the
head of the input.  All four patterns end in `x`/`X`, a word character,
so after a match the scanner records that the previous character is a
word character. -/

/-- Matcher for `[Ii]x` (pattern `/\b[Ii]x\b/g`). -/
def mIx : List Char → Option ℕ
  | c1 :: c2 :: _ => if (c1 = 'I' || c1 = 'i') && c2 = 'x' then some 2 else none
  | _ => none

/-- Matcher for `[Ii]\s+x` (pattern `/\b[Ii]\s+x\b/g`). -/
def mIwx (s : List Char) : Option ℕ :=
  match s with
  | c1 :: rest =>
      if c1 = 'I' || c1 = 'i' then
        let w := (rest.takeWhile isWsC).length
        if w = 0 then none
        else match rest.drop w with
          | 'x' :: _ => some (2 + w)
          | _ => none
      else none
  | [] => none

/-- Matcher for `l\s+x` case-insensitively (pattern `/\bl\s+x\b/gi`). -/
def mLwx (s : List Char) : Option ℕ :=
  match s with
  | c1 :: rest =>
      if c1 = 'l' || c1 = 'L' then
        let w := (rest.takeWhile isWsC).length
        if w = 0 then none
        else match rest.drop w with
          | c :: _ => if c = 'x' || c = 'X' then some (2 + w) else none
          | _ => none
      else none
  | [] => none

/-- Matcher for `Zx` (pattern `/\bZx\b/g`, case sensitive). -/
def mZx : List Char → Option ℕ
  | c1 :: c2 :: _ => if c1 = 'Z' && c2 = 'x' then some 2 else none
  | _ => none

/-- Global replace of a word-bounded pattern: scans left to right,
replacing each match (which must start at a word boundary and end before
one) with `repl` and continuing after it, exactly as `replace` with a
global regex does. -/
def qfScan (m : List Char → Option ℕ) (repl : List Char) :
    ℕ → Bool → List Char → List Char
  | 0, _, s => s
  | _ + 1, _, [] => []
  | fuel + 1, prevWord, c :: rest =>
      match (if prevWord then none else m (c :: rest)) with
      | some k =>
          if notWordAt ((c :: rest).drop k) then
            repl ++ qfScan m repl fuel true ((c :: rest).drop k)
          else c :: qfScan m repl fuel (isWordC c) rest
      | none => c :: qfScan m repl fuel (isWordC c) rest

/-- One quantity fix: `if (fix.pattern.test(normalized))` then global
replace and log the description.  A match always changes the text (the
replacements `1x`/`2x` differ from every matched form), so the test is
equivalent to comparing the replace result with the input. -/
def applyQtyFix (m : List Char → Option ℕ) (repl : List Char) (desc : String)
    (st : List Char × List String) : List Char × List String :=
  let s' := qfScan m repl st.1.length false st.1
  if s' ≠ st.1 then (s', st.2 ++ [desc]) else st

def applyQuantityFixes (st : List Char × List String) : List Char × List String :=
  applyQtyFix mZx ['2', 'x'] "Zx → 2x"
    (applyQtyFix mLwx ['1', 'x'] "l x → 1x"
      (applyQtyFix mIwx ['1', 'x'] "I x → 1x"
        (applyQtyFix mIx ['1', 'x'] "Ix → 1x" st)))

/-! ### Step 2 of `normalizeOcrLine`: hyphen decimals -/

/-- Matcher for the body of `/\b(\d{1,3})-(\d{2})\b/g` at the head of the
input (the leading boundary is checked by the scanner): a maximal digit
run of length 1–3, a hyphen, exactly two digits followed by a word
boundary.  Returns the two digit groups and the consumed length. -/
def hyMatch (s : List Char) : Option (List Char × List Char × ℕ) :=
  let d1 := s.takeWhile Char.isDigit
  if d1.length = 0 || d1.length > 3 then none
  else match s.drop d1.length with
    | '-' :: rest =>
        match rest with
        | a :: b :: rest2 =>
            if a.isDigit && b.isDigit && notWordAt rest2 then
              some (d1, [a, b], d1.length + 3)
            else none
        | _ => none
    | _ => none

/-- Global replace for the hyphen-decimal pattern, logging one change
entry per occurrence as the replacement callback does. -/
def hyScan : ℕ → Bool → List Char → List Char × List String
  | 0, _, s => (s, [])
  | _ + 1, _, [] => ([], [])
  | fuel + 1, prevWord, c :: rest =>
      match (if prevWord then none else hyMatch (c :: rest)) with
      | some (d1, d2, k) =>
          let t := hyScan fuel true ((c :: rest).drop k)
          (d1 ++ '.' :: d2 ++ t.1,
            (String.mk (d1 ++ '-' :: d2) ++ " → " ++ String.mk d1 ++ "." ++ String.mk d2)
              :: t.2)
      | none =>
          let t := hyScan fuel (isWordC c) rest
          (c :: t.1, t.2)

def hyphenDecimalFix (st : List Char × List String) : List Char × List String :=
  let r := hyScan st.1.length false st.1
  (r.1, st.2 ++ r.2)

/-! ### Step 3 of `normalizeOcrLine`: missing cents -/

/-- Allowed garbage suffixes of the missing-cents rule,
`/^(gg|or|aa|a)$/i`. -/
def centsSuffixOk (l : List Char) : Bool :=
  let low := l.map Char.toLower
  low = ['g', 'g'] || low = ['o', 'r'] || low = ['a', 'a'] || low = ['a']

/-- Implements the server-only missing-cents rule: match
`/\b(\d{1,2})\s+([a-z]{1,2})\s*$/i`, and when the suffix is one of
`gg|or|aa|a` and the digits parse to 1–99, replace the match with the
digit group.  Returns the new text and the matched suffix. -/
def missingCentsMatch (s : List Char) : Option (List Char × List Char) :=
  let r := s.reverse
  let r1 := r.dropWhile isWsC
  let letters := r1.takeWhile Char.isAlpha
  let r2 := r1.dropWhile Char.isAlpha
  if letters.length = 0 || letters.length > 2 then none
  else match r2 with
    | c :: _ =>
        if isWsC c then
          let r3 := r2.dropWhile isWsC
          let digs := r3.takeWhile Char.isDigit
          let r4 := r3.dropWhile Char.isDigit
          if digs.length = 0 || digs.length > 2 then none
          else if (match r4 with | [] => true | c2 :: _ => !isWordC c2) then
            let suffix := letters.reverse
            let digits := digs.reverse
            if centsSuffixOk suffix && 1 ≤ digitsVal digits then
              some (r4.reverse ++ digits, suffix)
            else none
          else none
        else none
    | [] => none

def missingCentsFix (st : List Char × List String) : List Char × List String :=
  match missingCentsMatch st.1 with
  | some (s', suffix) =>
      (s', st.2 ++ ["Removed garbage suffix \"" ++ String.mk suffix ++ "\""])
  | none => st

/-! ### Step 4 of `normalizeOcrLine`: trailing garbage removal

Every pattern is anchored at the end of the line; the leftmost match
starts at the whitespace run preceding the final token, so each strip
function removes that run together with the token and the trailing
whitespace, exactly what replacing the match by the empty string
leaves behind. -/

/-- Strip a match of `/\s+[a-z]{1,2}\s*$/i`: a trailing token of one or
two ASCII letters preceded by whitespace. -/
def stripTrailShortLetters (s : List Char) : Option (List Char) :=
  let r := s.reverse
  let r1 := r.dropWhile isWsC
  let letters := r1.takeWhile Char.isAlpha
  let r2 := r1.dropWhile Char.isAlpha
  if letters.length = 0 || letters.length > 2 then none
  else match r2 with
    | c :: _ => if isWsC c then some ((r2.dropWhile isWsC).reverse) else none
    | [] => none

/-- Strip a match of `/\s+"\d+\s*S\d+\s*"$/`. -/
def stripTrailQuotedCode (s : List Char) : Option (List Char) :=
  match s.reverse with
  | '"' :: r1 =>
      let r2 := r1.dropWhile isWsC
      let d2 := r2.takeWhile Char.isDigit
      let r3 := r2.dropWhile Char.isDigit
      if d2.length = 0 then none
      else match r3 with
        | 'S' :: r4 =>
            let r5 := r4.dropWhile isWsC
            let d1 := r5.takeWhile Char.isDigit
            let r6 := r5.dropWhile Char.isDigit
            if d1.length = 0 then none
            else match r6 with
              | '"' :: r7 =>
                  match r7 with
                  | c :: _ => if isWsC c then some ((r7.dropWhile isWsC).reverse) else none
                  | [] => none
              | _ => none
        | _ => none
  | _ => none

/-- Strip a match of `/\s+[A-Z]\d+\s*$/`. -/
def stripTrailCapDigits (s : List Char) : Option (List Char) :=
  let r := s.reverse
  let r1 := r.dropWhile isWsC
  let d := r1.takeWhile Char.isDigit
  let r2 := r1.dropWhile Char.isDigit
  if d.length = 0 then none
  else match r2 with
    | c :: r3 =>
        if c.isUpper then
          match r3 with
          | c2 :: _ => if isWsC c2 then some ((r3.dropWhile isWsC).reverse) else none
          | [] => none
        else none
    | [] => none

/-- Strip a match of `/\s+\d+\s*x\s+\$\d+\.\d+\s*$/` (a duplicated
`Nx $P.QQ` fragment at the end of the line). -/
def stripTrailDupPrice (s : List Char) : Option (List Char) :=
  let r := s.reverse
  let r1 := r.dropWhile isWsC
  let d2 := r1.takeWhile Char.isDigit
  let r2 := r1.dropWhile Char.isDigit
  if d2.length = 0 then none
  else match r2 with
    | '.' :: r3 =>
        let d1 := r3.takeWhile Char.isDigit
        let r4 := r3.dropWhile Char.isDigit
        if d1.length = 0 then none
        else match r4 with
          | '$' :: r5 =>
              let w1 := r5.takeWhile isWsC
              let r6 := r5.dropWhile isWsC
              if w1.length = 0 then none
              else match r6 with
                | 'x' :: r7 =>
                    let r8 := r7.dropWhile isWsC
                    let d0 := r8.takeWhile Char.isDigit
                    let r9 := r8.dropWhile Char.isDigit
                    if d0.length = 0 then none
                    else match r9 with
                      | c :: _ =>
                          if isWsC c then some ((r9.dropWhile isWsC).reverse) else none
                      | [] => none
                | _ => none
          | _ => none
    | _ => none

/-- One garbage pattern: `if (pattern.test(normalized))` then replace
the match by the empty string, trim, and log the removal message
(a successful match always shrinks the string, so it always logs). -/
def applyGarbage (strip : List Char → Option (List Char))
    (st : List Char × List String) : List Char × List String :=
  match strip st.1 with
  | some s' => (trimChars s', st.2 ++ ["Removed trailing garbage"])
  | none => st

def garbageFixes (st : List Char × List String) : List Char × List String :=
  applyGarbage stripTrailDupPrice
    (applyGarbage stripTrailCapDigits
      (applyGarbage stripTrailQuotedCode
        (applyGarbage stripTrailShortLetters st)))

/-- Strip a match of `/\s+A\s*$/` (lone trailing tax-code letter). -/
def stripTaxA (s : List Char) : Option (List Char) :=
  let r := s.reverse
  let r1 := r.dropWhile isWsC
  match r1 with
  | 'A' :: r2 =>
      match r2 with
      | c :: _ => if isWsC c then some ((r2.dropWhile isWsC).reverse) else none
      | [] => none
  | _ => none

/-- Result shape of `normalizeOcrLine` (`NormalizedLine` of the source). -/
structure NormalizedLine where
  normalized : String
  original : String
  changes : List String
deriving Repr, DecidableEq

/-- Embeds the server-side `normalizeOcrLine`
(`receipt/parse/normalizeOcrLine.ts`): quantity-token fixes, hyphen
decimals, missing cents, trailing garbage, trailing tax code `A`,
quote stripping and whitespace collapsing, with the change log the
source accumulates. -/
def normalizeOcrLine (line : String) : NormalizedLine :=
  let original := trimChars line.data
  let st1 := applyQuantityFixes (original, [])
  let st2 := hyphenDecimalFix st1
  let st3 := missingCentsFix st2
  let st4 := garbageFixes st3
  let s5 :=
    match stripTaxA st4.1 with
    | some s' => trimChars s'
    | none => trimChars st4.1
  let ch5 :=
    if s5 ≠ original &&
        (match original.reverse with
          | 'A' :: ' ' :: _ => true
          | _ => false) then
      st4.2 ++ ["Removed tax code \"A\""]
    else st4.2
  let s6 := trimChars (collapseWs (stripQuoteRuns s5))
  { normalized := String.mk s6, original := String.mk original, changes := ch5 }

/-! ### Canonical item-name extraction (`extractCanonicalName.ts`) -/

/-- Head matcher for `/^\s*(\d+)\s*[xX]\s+/`: returns the parsed quantity
and the number of characters the match consumes. -/
def qtyHeadMatch (s : List Char) : Option (ℕ × ℕ) :=
  let w0 := (s.takeWhile isWsC).length
  let s0 := s.drop w0
  let d := s0.takeWhile Char.isDigit
  if d.length = 0 then none
  else
    let s1 := s0.drop d.length
    let w1 := (s1.takeWhile isWsC).length
    match s1.drop w1 with
    | c :: s2 =>
        if c = 'x' || c = 'X' then
          let w2 := (s2.takeWhile isWsC).length
          if w2 = 0 then none
          else some (digitsVal d, w0 + d.length + w1 + 1 + w2)
        else none
    | [] => none

/-- Head matcher for `/^\s*[Ii]x\s+/i`. -/
def ixHeadMatch (s : List Char) : Option ℕ :=
  let w0 := (s.takeWhile isWsC).length
  match s.drop w0 with
  | c1 :: c2 :: s2 =>
      if (c1 = 'I' || c1 = 'i') && (c2 = 'x' || c2 = 'X') then
        let w2 := (s2.takeWhile isWsC).length
        if w2 = 0 then none else some (w0 + 2 + w2)
      else none
  | _ => none

/-- Head matcher for `/^\s*[Ii]\s+x\s+/i`. -/
def iwxHeadMatch (s : List Char) : Option ℕ :=
  let w0 := (s.takeWhile isWsC).length
  match s.drop w0 with
  | c1 :: s1 =>
      if c1 = 'I' || c1 = 'i' then
        let w1 := (s1.takeWhile isWsC).length
        if w1 = 0 then none
        else match s1.drop w1 with
          | c2 :: s2 =>
              if c2 = 'x' || c2 = 'X' then
                let w2 := (s2.takeWhile isWsC).length
                if w2 = 0 then none else some (w0 + 1 + w1 + 1 + w2)
              else none
          | [] => none
      else none
  | [] => none

/-- Head matcher for `/^\s*l\s+x\s+/i`. -/
def lwxHeadMatch (s : List Char) : Option ℕ :=
  let w0 := (s.takeWhile isWsC).length
  match s.drop w0 with
  | c1 :: s1 =>
      if c1 = 'l' || c1 = 'L' then
        let w1 := (s1.takeWhile isWsC).length
        if w1 = 0 then none
        else match s1.drop w1 with
          | c2 :: s2 =>
              if c2 = 'x' || c2 = 'X' then
                let w2 := (s2.takeWhile isWsC).length
                if w2 = 0 then none else some (w0 + 1 + w1 + 1 + w2)
              else none
          | [] => none
      else none
  | [] => none

/-- Step 1 of `extractCanonicalName`: try the leading-quantity patterns
in order, strip the first one that matches, trim, and stop (the fifth
source pattern `/^\s*\d+\s*x\s+/i` is subsumed by the first and can never
fire after it). -/
def ecnStep1 (s : List Char) : List Char :=
  match qtyHeadMatch s with
  | some (_, k) => trimChars (s.drop k)
  | none =>
      match ixHeadMatch s with
      | some k => trimChars (s.drop k)
      | none =>
          match iwxHeadMatch s with
          | some k => trimChars (s.drop k)
          | none =>
              match lwxHeadMatch s with
              | some k => trimChars (s.drop k)
              | none => s

/-- Match of `/\$?\s*\d{1,3}[\.\-]\d{2}\b/` at the head of the input;
returns the consumed length. -/
def priceTokAt (s : List Char) : Option ℕ :=
  let k0 : ℕ := match s with | '$' :: _ => 1 | _ => 0
  let s0 := s.drop k0
  let w := (s0.takeWhile isWsC).length
  let s1 := s0.drop w
  let d := s1.takeWhile Char.isDigit
  if d.length = 0 || d.length > 3 then none
  else match s1.drop d.length with
    | sep :: a :: b :: rest2 =>
        if (sep = '.' || sep = '-') && a.isDigit && b.isDigit && notWordAt rest2 then
          some (k0 + w + d.length + 3)
        else none
    | _ => none

/-- Global removal of `/\$?\s*\d{1,3}[\.\-]\d{2}\b/g` (step 2a of
`extractCanonicalName`). -/
def priceTokScan : ℕ → List Char → List Char
  | 0, s => s
  | _ + 1, [] => []
  | fuel + 1, c :: rest =>
      match priceTokAt (c :: rest) with
      | some k => priceTokScan fuel ((c :: rest).drop k)
      | none => c :: priceTokScan fuel rest

/-- Match of `/\$\s*\d+\.\d{2}\b/` at the head of the input. -/
def dollarPriceAt (s : List Char) : Option ℕ :=
  match s with
  | '$' :: s0 =>
      let w := (s0.takeWhile isWsC).length
      let s1 := s0.drop w
      let d := s1.takeWhile Char.isDigit
      if d.length = 0 then none
      else match s1.drop d.length with
        | '.' :: a :: b :: rest2 =>
            if a.isDigit && b.isDigit && notWordAt rest2 then
              some (1 + w + d.length + 3)
            else none
        | _ => none
  | _ => none

/-- Global removal of `/\$\s*\d+\.\d{2}\b/g` (step 2b of
`extractCanonicalName`). -/
def dollarPriceScan : ℕ → List Char → List Char
  | 0, s => s
  | _ + 1, [] => []
  | fuel + 1, c :: rest =>
      match dollarPriceAt (c :: rest) with
      | some k => dollarPriceScan fuel ((c :: rest).drop k)
      | none => c :: dollarPriceScan fuel rest

/-- Strip a match of `/\s+"\d+\s*S\d+\s*"\s*$/` (the canonical-name
variant of the quoted-code pattern, which allows trailing whitespace). -/
def stripTrailQuotedCodeWs (s : List Char) : Option (List Char) :=
  stripTrailQuotedCode ((s.reverse.dropWhile isWsC).reverse)

/-- Strip a match of `/\s+\d+\.\d{3,}\s*$/` (an over-long decimal tail). -/
def stripTrailLongDecimal (s : List Char) : Option (List Char) :=
  let r1 := s.reverse.dropWhile isWsC
  let d2 := r1.takeWhile Char.isDigit
  let r2 := r1.dropWhile Char.isDigit
  if d2.length < 3 then none
  else match r2 with
    | '.' :: r3 =>
        let d1 := r3.takeWhile Char.isDigit
        let r4 := r3.dropWhile Char.isDigit
        if d1.length = 0 then none
        else match r4 with
          | c :: _ => if isWsC c then some ((r4.dropWhile isWsC).reverse) else none
          | [] => none
    | _ => none

/-- Step 4 of `extractCanonicalName`: apply the five trailing-garbage
patterns in order and stop at the first one that fires (the `break` on
change in the source). -/
def ecnGarbage (s : List Char) : List Char :=
  match stripTrailShortLetters s with
  | some t => trimChars t
  | none =>
      match stripTrailQuotedCodeWs s with
      | some t => trimChars t
      | none =>
          match stripTrailCapDigits s with
          | some t => trimChars t
          | none =>
              match stripTrailLongDecimal s with
              | some t => trimChars t
              | none =>
                  match stripTrailDupPrice s with
                  | some t => trimChars t
                  | none => s

/-- Character class `[a-zA-Z\s&]` of the name-fallback pattern. -/
def fbClassChar (c : Char) : Bool :=
  c.isAlpha || isWsC c || c = '&'

/-- Continuation `(?:\s+\d+[\.\-]\d{2}|\s+\$)` of the name-fallback
pattern. -/
def fbContinuation (s : List Char) : Bool :=
  let w := (s.takeWhile isWsC).length
  if w = 0 then false
  else match s.drop w with
    | '$' :: _ => true
    | t =>
        let d := t.takeWhile Char.isDigit
        if d.length = 0 then false
        else match t.drop d.length with
          | sep :: a :: b :: _ => (sep = '.' || sep = '-') && a.isDigit && b.isDigit
          | _ => false

/-- Lazy-group search of `/^([a-zA-Z\s&]+?)(?:\s+\d+[\.\-]\d{2}|\s+\$)/`:
the shortest non-empty class-character prefix whose continuation
matches. -/
def fbSearch (s : List Char) : Option (List Char) :=
  let maxK := (s.takeWhile fbClassChar).length
  (List.range maxK).findSome? fun i =>
    if fbContinuation (s.drop (i + 1)) then some (s.take (i + 1)) else none

/-- Second fallback of step 6: strip a leading quantity token and a
trailing short-letter token from the raw input, then trim. -/
def ecnFallbackRaw (orig : List Char) : List Char :=
  let a := match qtyHeadMatch orig with | some (_, k) => orig.drop k | none => orig
  let b := match stripTrailShortLetters a with | some t => t | none => a
  trimChars b

/-- Step 6 of `extractCanonicalName`: when the cleaned name is shorter
than 3 characters, fall back to the letters-only prefix of the raw line,
or failing that to the quantity-and-suffix-stripped raw line. -/
def ecnFallback (orig : List Char) : List Char :=
  match fbSearch orig with
  | some g => if (trimChars g).length ≥ 3 then trimChars g else ecnFallbackRaw orig
  | none => ecnFallbackRaw orig

/-- Embeds `extractCanonicalName` (server-side copy, identical to the
client copy): quantity-token removal, money-token removal, tax-code and
trailing-garbage stripping, quote/whitespace cleanup, the short-name
fallback and the final short-letter strip. -/
def extractCanonicalName (originalLine : String) : String :=
  let n0 := trimChars originalLine.data
  let n1 := ecnStep1 n0
  let n2a := trimChars (priceTokScan n1.length n1)
  let n2 := trimChars (dollarPriceScan n2a.length n2a)
  let n3 := match stripTaxA n2 with | some t => trimChars t | none => trimChars n2
  let n4 := ecnGarbage n3
  let n5 := trimChars (collapseWs (stripQuoteRuns n4))
  let n6 := if n5.length < 3 then ecnFallback originalLine.data else n5
  let n7 := trimChars (match stripTrailShortLetters n6 with | some t => t | none => n6)
  String.mk n7

/-! ### Line reconstruction (`reconstructReceiptLine.ts`) -/

/-- Fixed-point rendering with `d` decimal digits, implementing
`Number.prototype.toFixed(d)` for the exact rationals of the embedding
(rounding half away from zero). -/
def toFixedQ (d : ℕ) (q : ℚ) : String :=
  let scale : ℚ := (10 : ℚ) ^ d
  let n : ℤ := if q < 0 then -⌊(-q) * scale + 1/2⌋ else ⌊q * scale + 1/2⌋
  let m := n.natAbs
  let ip := m / 10 ^ d
  let fp := m % 10 ^ d
  let fpStr := Nat.toDigits 10 fp
  let pad := List.replicate (d - fpStr.length) '0'
  (if n < 0 then "-" else "") ++ String.mk (Nat.toDigits 10 ip) ++
    (if d = 0 then "" else "." ++ String.mk (pad ++ fpStr))

/-- Renders a whole number of cents the way `toFixed(2)` prints the
corresponding amount. -/
def centsToFixed (c : ℕ) : List Char :=
  Nat.toDigits 10 (c / 100) ++ '.' ::
    (if c % 100 < 10 then '0' :: Nat.toDigits 10 (c % 100) else Nat.toDigits 10 (c % 100))

/-- Match of `\b(\d{1,3}\.\d{2})\b` at the head of the input (the leading
boundary is checked by the scanner): returns the value in cents and the
consumed length. -/
def priceAt (s : List Char) : Option (ℕ × ℕ) :=
  let d := s.takeWhile Char.isDigit
  if d.length = 0 || d.length > 3 then none
  else match s.drop d.length with
    | '.' :: a :: b :: rest2 =>
        if a.isDigit && b.isDigit && notWordAt rest2 then
          some (digitsVal d * 100 + digitsVal [a, b], d.length + 3)
        else none
    | _ => none

/-- Implements `matchAll` for `/\b(\d{1,3}\.\d{2})\b/g`: all money tokens
in source order, in cents.  After a match the previous character is a
digit, hence a word character. -/
def pricesScanAux : ℕ → Bool → List Char → List ℕ
  | 0, _, _ => []
  | _ + 1, _, [] => []
  | fuel + 1, prevWord, c :: rest =>
      match (if prevWord then none else priceAt (c :: rest)) with
      | some (cents, k) => cents :: pricesScanAux fuel true ((c :: rest).drop k)
      | none => pricesScanAux fuel (isWordC c) rest

def pricesScan (s : List Char) : List ℕ :=
  pricesScanAux s.length false s

/-- Match of `\$?\s*P\b` at the head of the input for a literal rendered
price `p`; returns the consumed length. -/
def priceRemAt (p : List Char) (s : List Char) : Option ℕ :=
  let k0 : ℕ := match s with | '$' :: _ => 1 | _ => 0
  let s0 := s.drop k0
  let w := (s0.takeWhile isWsC).length
  let s1 := s0.drop w
  if p.isPrefixOf s1 && notWordAt (s1.drop p.length) then some (k0 + w + p.length)
  else none

/-- Implements the per-price removal of step 3: replace the first match
of optional dollar sign, whitespace and the rendered price at a word
boundary by the empty string; remove the first occurrence only. -/
def stripPriceOnce (p : List Char) : ℕ → List Char → List Char
  | 0, s => s
  | _ + 1, [] => []
  | fuel + 1, c :: rest =>
      match priceRemAt p (c :: rest) with
      | some k => (c :: rest).drop k
      | none => c :: stripPriceOnce p fuel rest

/-- The price-token removal loop of `reconstructReceiptLine` step 3:
each rendered price is removed once and the result trimmed. -/
def stripAllPricesOnce (cents : List ℕ) (s : List Char) : List Char :=
  cents.foldl (fun acc c =>
    let p := centsToFixed c
    trimChars (stripPriceOnce p acc.length acc)) s

/-- Boolean substring test (used for the plain-substring keyword
regexes and `String.prototype.includes`). -/
def occursIn (pat : List Char) : List Char → Bool
  | [] => pat.isPrefixOf []
  | c :: rest => pat.isPrefixOf (c :: rest) || occursIn pat rest

/-- Substring search for `amount\s*due` (case already folded). -/
def amountWsDue : List Char → Bool
  | [] => false
  | c :: rest =>
      (if ['a', 'm', 'o', 'u', 'n', 't'].isPrefixOf (c :: rest) then
        ['d', 'u', 'e'].isPrefixOf (((c :: rest).drop 6).dropWhile isWsC)
      else false)
      || amountWsDue rest

/-- Totals keyword filter
`/total|subtotal|tax|gst|vat|service|tip|balance|amount\s*due/i`
(plain substring search; `subtotal` is subsumed by `total`). -/
def hasTotalsKeyword (s : List Char) : Bool :=
  let low := s.map Char.toLower
  occursIn ['t', 'o', 't', 'a', 'l'] low ||
  occursIn ['t', 'a', 'x'] low ||
  occursIn ['g', 's', 't'] low ||
  occursIn ['v', 'a', 't'] low ||
  occursIn ['s', 'e', 'r', 'v', 'i', 'c', 'e'] low ||
  occursIn ['t', 'i', 'p'] low ||
  occursIn ['b', 'a', 'l', 'a', 'n', 'c', 'e'] low ||
  amountWsDue low

/-- Separator-line test `/^-+$/` or `/^=+$/`. -/
def isSepLine (s : List Char) : Bool :=
  (s ≠ [] && s.all (· = '-')) || (s ≠ [] && s.all (· = '='))

/-- Result shape of `reconstructReceiptLine` (`ReconstructedLine`). -/
structure ReconstructedLine where
  quantity : ℕ
  itemName : String
  unitPrice : Option ℚ
  lineTotal : ℚ
  originalLine : String
  confidence : ℚ
  needsReview : Bool
  reviewReasons : List String
deriving Repr, DecidableEq

/-- Step 1 of `reconstructReceiptLine`: the quantity (only from the
line start, default 1), the confidence after the high-quantity flag
(base 0.8, capped at 0.5 when the quantity exceeds 10), the review
reasons so far and the name source with the matched quantity prefix
removed (the matched prefix replaced by the empty string). -/
def recQtyData (line : List Char) : ℕ × ℚ × List String × List Char :=
  match qtyHeadMatch line with
  | some (v, k) =>
      if v > 10 then
        (v, min (4/5 : ℚ) (1/2),
          ["Unusually high quantity: " ++ String.mk (Nat.toDigits 10 v)], line.drop k)
      else (v, (4/5 : ℚ), [], line.drop k)
  | none => (1, (4/5 : ℚ), [], line)

/-- Step 4 of `reconstructReceiptLine` (column logic): unit price, line
total, confidence and review reasons from the extracted prices.  With a
single price that price is the total (unit derived when quantity > 1);
with several prices and quantity > 1 the first is the unit and the last
the total, flagged when `quantity × unit` misses the total by more than
0.02; with quantity ≤ 1 the last price is the total (the two-price
special case of the source assigns the same last price). -/
def recColumnLogic (quantity : ℕ) (conf : ℚ) (reasons : List String) :
    List ℚ → Option ℚ × ℚ × ℚ × List String
  | [] => (Option.none, 0, conf, reasons)
  | [p] =>
      (if quantity > 1 then some (p / (quantity : ℚ)) else Option.none, p, conf, reasons)
  | p :: q :: rest =>
      if quantity > 1 then
        if |(p :: q :: rest).getLastD 0 - p * (quantity : ℚ)| > 1/50 then
          (some p, (p :: q :: rest).getLastD 0, min conf (3/5),
            reasons ++ ["Quantity mismatch: " ++ String.mk (Nat.toDigits 10 quantity) ++
              " × $" ++ toFixedQ 2 p ++ " = $" ++ toFixedQ 2 (p * (quantity : ℚ)) ++
              ", but line total is $" ++ toFixedQ 2 ((p :: q :: rest).getLastD 0)])
        else (some p, (p :: q :: rest).getLastD 0, conf, reasons)
      else (Option.none, (p :: q :: rest).getLastD 0, conf, reasons)

/-- Steps 5–6 of `reconstructReceiptLine`: reject non-positive totals or
unit prices, set `needsReview` and assemble the record. -/
def recFinish (quantity : ℕ) (name : String) (originalLine : String)
    (col : Option ℚ × ℚ × ℚ × List String) : Option ReconstructedLine :=
  if col.2.1 ≤ 0 || (match col.1 with | some u => u ≤ 0 | Option.none => false) then
    Option.none
  else
    some {
      quantity := quantity
      itemName := name
      unitPrice := col.1
      lineTotal := col.2.1
      originalLine := originalLine
      confidence := col.2.2.1
      needsReview := !col.2.2.2.isEmpty || col.2.2.1 < 7/10
      reviewReasons := col.2.2.2 }

/-- Embeds `reconstructReceiptLine`: rejection of separators, totals
lines, price-less lines and out-of-range names; quantity only from the
line start; column logic first-price-is-unit / last-price-is-total; the
quantity-mismatch flag; and the base confidence 0.8 that the two flags
can only lower.  The source binds `line`, `qtyMatch`, `prices` once;
here the stage functions are applied to the same expressions. -/
def reconstructReceiptLine (normalizedLine originalLine : String) :
    Option ReconstructedLine :=
  if normalizedLine.data.length < 3 || isSepLine normalizedLine.data then none
  else if hasTotalsKeyword normalizedLine.data then none
  else if pricesScan (trimChars normalizedLine.data) = [] then none
  else
    let name := extractCanonicalName (String.mk (stripAllPricesOnce
      (pricesScan (trimChars normalizedLine.data))
      (recQtyData (trimChars normalizedLine.data)).2.2.2))
    if name.length < 2 || name.length > 100 then none
    else
      recFinish (recQtyData (trimChars normalizedLine.data)).1 name originalLine
        (recColumnLogic (recQtyData (trimChars normalizedLine.data)).1
          (recQtyData (trimChars normalizedLine.data)).2.1
          (recQtyData (trimChars normalizedLine.data)).2.2.1
          ((pricesScan (trimChars normalizedLine.data)).map (fun c => (c : ℚ) / 100)))

/-! ### Contexts and sanity checks -/

/-- Context item of `autoCorrectAmounts.ts` / `sanityChecks.ts`
(`{ lineTotal, quantity, unitPrice }`). -/
structure CtxItemA where
  lineTotal : ℚ
  quantity : ℕ
  unitPrice : Option ℚ
deriving Repr, DecidableEq

/-- Shape `ReceiptContext` of `autoCorrectAmounts.ts` / `sanityChecks.ts`. -/
structure ReceiptContextA where
  items : List CtxItemA
  receiptTotal : Option ℚ
  subtotal : Option ℚ
deriving Repr, DecidableEq

/-- Context item of `receiptSanityChecks.ts`
(`{ quantity, itemName, unitPrice, lineTotal }`). -/
structure CtxItemB where
  quantity : ℕ
  itemName : String
  unitPrice : Option ℚ
  lineTotal : ℚ
deriving Repr, DecidableEq

/-- Shape `ReceiptContext` of `receiptSanityChecks.ts`. -/
structure ReceiptContextB where
  items : List CtxItemB
  receiptTotal : Option ℚ
  subtotal : Option ℚ
deriving Repr, DecidableEq

/-- Item argument shared by both sanity-check functions. -/
structure SanityItemArg where
  quantity : ℕ
  itemName : String
  unitPrice : Option ℚ
  lineTotal : ℚ
  originalLine : String
deriving Repr, DecidableEq

/-- Cents of `value.toFixed(2)`: rounding half away from zero, exact for
the cent-valued amounts reaching the numeric string operations. -/
def jsRound2 (q : ℚ) : ℤ := ⌊q * 100 + 1/2⌋

/-- Number of decimal digits `n.toString()` prints. -/
def digitCount (n : ℕ) : ℕ := (Nat.toDigits 10 n).length

/-- Sum of the line totals of a context-item list. -/
def sumTotalsA (l : List CtxItemA) : ℚ := (l.map CtxItemA.lineTotal).sum

def sumTotalsB (l : List CtxItemB) : ℚ := (l.map CtxItemB.lineTotal).sum

/-! ### Auto-correction (`autoCorrectAmounts.ts`) -/

/-- The `correctionType` values of `CorrectionResult`; `none` corresponds
to the source string "none". -/
inductive CorrectionType where
  | extra_digit
  | missing_decimal
  | shifted_decimal
  | none
deriving Repr, DecidableEq

/-- Result shape of `autoCorrectAmount`. -/
structure CorrectionResult where
  corrected : Bool
  originalValue : ℚ
  correctedValue : ℚ
  correctionType : CorrectionType
  confidence : ℚ
deriving Repr, DecidableEq

/-- Ascending insertion sort implementing `sort((a, b) => a - b)`. -/
def insertAsc (x : ℚ) : List ℚ → List ℚ
  | [] => [x]
  | y :: t => if x ≤ y then x :: y :: t else y :: insertAsc x t

def sortAsc : List ℚ → List ℚ
  | [] => []
  | x :: t => insertAsc x (sortAsc t)

/-- The median index expression of the source:
`sorted[Math.floor(otherItems.length / 2)]` over the ascending sort of
the other items' line totals. -/
def medianOfTotals (totals : List ℚ) : ℚ :=
  (sortAsc totals).getD (totals.length / 2) 0

/-- The failure result every failing path of `autoCorrectAmount`
returns: corrected = false, type "none", confidence 0. -/
def noCorrectionRes (value : ℚ) : CorrectionResult :=
  { corrected := false, originalValue := value, correctedValue := value,
    correctionType := CorrectionType.none, confidence := 0 }

/-- Strategy 1 of `autoCorrectAmount` (lines 55–74): extra leading
digit.  `value.toFixed(2)` must show at least three digits before the
decimal point; dropping the first of them must land in the ratio window
(0.3, 3.0) against the mean and strictly closer to the median. -/
def tryExtraDigit (value avgTotal medianTotal : ℚ) : Option CorrectionResult :=
  if value > avgTotal * 8 && value > 100 then
    let cn := (jsRound2 value).toNat
    let dBefore := digitCount (cn / 100)
    if dBefore ≥ 3 then
      let withoutFirstDigit : ℚ := ((cn % (10 ^ (dBefore - 1) * 100) : ℕ) : ℚ) / 100
      let rto := withoutFirstDigit / avgTotal
      if rto > 3/10 && rto < 3 &&
          |withoutFirstDigit - medianTotal| < |value - medianTotal| then
        some { corrected := true, originalValue := value, correctedValue := withoutFirstDigit, correctionType := CorrectionType.extra_digit, confidence := 7/10 }
      else Option.none
    else Option.none
  else Option.none

/-- Strategy 2 of `autoCorrectAmount` (lines 76–95): missing decimal
point on a whole-number amount of at least three digits; the re-pointed
value `value / 100` must land in (0.3, 3.0) of the mean and strictly
closer to the median. -/
def tryMissingDecimal (value avgTotal medianTotal : ℚ) : Option CorrectionResult :=
  if value.den = 1 && value > 10 && value < 10000 then
    let vlen := digitCount value.num.toNat
    if vlen ≥ 3 then
      let withDecimal := value / 100
      let rto := withDecimal / avgTotal
      if rto > 3/10 && rto < 3 &&
          |withDecimal - medianTotal| < |value - medianTotal| then
        some { corrected := true, originalValue := value, correctedValue := withDecimal, correctionType := CorrectionType.missing_decimal, confidence := 3/5 }
      else Option.none
    else Option.none
  else Option.none

/-- Strategy 3 of `autoCorrectAmount` (lines 97–114): shifted decimal
point; `value * 10` (computed on the cents of `toFixed(2)`) must land in
(0.5, 2.0) of the mean and strictly closer to the median. -/
def tryShiftedDecimal (value avgTotal medianTotal : ℚ) : Option CorrectionResult :=
  if value < 100 && value > 0 then
    let cn := (jsRound2 value).toNat
    let shifted : ℚ := (cn : ℚ) / 10
    let rto := shifted / avgTotal
    if rto > 1/2 && rto < 2 &&
        |shifted - medianTotal| < |value - medianTotal| then
      some { corrected := true, originalValue := value, correctedValue := shifted, correctionType := CorrectionType.shifted_decimal, confidence := 1/2 }
    else Option.none
  else Option.none

/-- Embeds `autoCorrectAmount`: the three strategies in source order
(extra leading digit at confidence 0.7, missing decimal at 0.6, shifted
decimal at 0.5), each computed against the mean/median of the other
items; when the context has no other items or no strategy fires, the
corrected = false result of type "none" and confidence 0.  The string surgery of the
source (`toFixed(2)`, `substring`, digit slicing) is carried out in
exact cents arithmetic. -/
def autoCorrectCore (value : ℚ) (others : List CtxItemA) : CorrectionResult :=
  match tryExtraDigit value (sumTotalsA others / others.length)
      (medianOfTotals (others.map CtxItemA.lineTotal)) with
  | some r => r
  | Option.none =>
    match tryMissingDecimal value (sumTotalsA others / others.length)
        (medianOfTotals (others.map CtxItemA.lineTotal)) with
    | some r => r
    | Option.none =>
      match tryShiftedDecimal value (sumTotalsA others / others.length)
          (medianOfTotals (others.map CtxItemA.lineTotal)) with
      | some r => r
      | Option.none => noCorrectionRes value

def autoCorrectAmount (value : ℚ) (context : ReceiptContextA) : CorrectionResult :=
  if context.items.length = 0 then noCorrectionRes value
  else if (context.items.filter (fun i => i.lineTotal ≠ value)).length = 0 then
    noCorrectionRes value
  else autoCorrectCore value (context.items.filter (fun i => i.lineTotal ≠ value))

/-! ### The server-side `checkItemSanity` (`sanityChecks.ts`) -/

/-- Result shape of `checkItemSanity`. -/
structure SanityResultA where
  isSuspicious : Bool
  needsReview : Bool
  reviewReasons : List String
  confidence : ℚ
deriving Repr, DecidableEq

/-- Test of `/[.\-_]{2,}$/`: the line ends in two or more dots, hyphens
or underscores. -/
def hasTrailPunct (s : List Char) : Bool :=
  2 ≤ (s.reverse.takeWhile (fun c => c = '.' || c = '-' || c = '_')).length

/-- Test of `/\s+\d{1,2}\s*$/`: a trailing token of one or two digits
preceded by whitespace. -/
def hasTrailShortDigits (s : List Char) : Bool :=
  let r1 := s.reverse.dropWhile isWsC
  let d := r1.takeWhile Char.isDigit
  let r2 := r1.dropWhile Char.isDigit
  decide (1 ≤ d.length ∧ d.length ≤ 2) &&
    (match r2 with | c :: _ => isWsC c | [] => false)

/-- Embeds `checkItemSanity`: confidence starts at 1.0 and each firing
rule subtracts a penalty; `isSuspicious` records whether any reason
fired.  `medianItemTotal` and `medianRatio` of the source are computed
but never used, so they are omitted. -/
def checkItemSanity (item : SanityItemArg) (context : ReceiptContextA) :
    SanityResultA :=
  let st0 : List String × ℚ := ([], 1)
  let st1 :=
    if context.items.length > 0 then
      let otherItems := context.items.filter (fun i => i.lineTotal ≠ item.lineTotal)
      if otherItems.length > 0 then
        let avgItemTotal := sumTotalsA otherItems / otherItems.length
        let rto := item.lineTotal / avgItemTotal
        let stA :=
          if rto > 8 && item.lineTotal > 100 then
            (st0.1 ++ ["Price seems too high (" ++ toFixedQ 2 item.lineTotal ++
              " vs avg " ++ toFixedQ 2 avgItemTotal ++ ")"], st0.2 - 2/5)
          else st0
        let stB :=
          if rto < 3/20 && avgItemTotal > 10 then
            (stA.1 ++ ["Price seems too low (" ++ toFixedQ 2 item.lineTotal ++
              " vs avg " ++ toFixedQ 2 avgItemTotal ++ ")"], stA.2 - 3/10)
          else stA
        match context.receiptTotal with
        | some rt =>
            if rt ≠ 0 then
              let itemsSum := sumTotalsA context.items
              if itemsSum > rt * 6/5 && item.lineTotal > rt * 1/2 then
                (stB.1 ++ ["Item total (" ++ toFixedQ 2 item.lineTotal ++
                  ") is large compared to receipt total (" ++ toFixedQ 2 rt ++ ")"],
                  stB.2 - 3/10)
              else stB
            else stB
        | Option.none => stB
      else st0
    else st0
  let st2 :=
    match item.unitPrice with
    | some u =>
        if item.quantity > 1 then
          let expectedTotal := u * (item.quantity : ℚ)
          let difference := |item.lineTotal - expectedTotal|
          if difference > 1/50 then
            (st1.1 ++ ["Quantity mismatch: " ++ String.mk (Nat.toDigits 10 item.quantity) ++
              "x $" ++ toFixedQ 2 u ++ " = $" ++ toFixedQ 2 expectedTotal ++
              ", but line total is $" ++ toFixedQ 2 item.lineTotal], st1.2 - 1/5)
          else st1
        else st1
    | Option.none => st1
  let nameChars := item.itemName.data
  let hasNameNoise :=
    (stripTrailShortLetters nameChars).isSome || hasTrailPunct nameChars ||
      hasTrailShortDigits nameChars
  let st3 :=
    if hasNameNoise then
      (st2.1 ++ ["Item name contains suspicious trailing characters"], st2.2 - 1/10)
    else st2
  let cn := (jsRound2 item.lineTotal).toNat
  let dBefore := digitCount (cn / 100)
  let st4 :=
    if dBefore + 3 > 6 then
      let withoutFirstDigit : ℚ := ((cn % (10 ^ (dBefore - 1) * 100) : ℕ) : ℚ) / 100
      if context.items.length > 0 then
        let avgTotal := sumTotalsA context.items / context.items.length
        if |withoutFirstDigit - avgTotal| < |item.lineTotal - avgTotal| then
          (st3.1 ++ ["Price might have extra leading digit (" ++
            toFixedQ 2 item.lineTotal ++ " -> " ++ toFixedQ 2 withoutFirstDigit ++ ")"],
            st3.2 - 3/10)
        else st3
      else st3
    else st3
  let st5 :=
    if item.lineTotal.den = 1 && item.lineTotal > 100 then
      (st4.1 ++ ["Price is a whole number (" ++ toFixedQ 2 item.lineTotal ++
        ") - might be missing decimal"], st4.2 - 1/10)
    else st4
  { isSuspicious := !st5.1.isEmpty
    needsReview := st5.2 < 7/10 || !st5.1.isEmpty
    reviewReasons := st5.1
    confidence := max 0 (min 1 st5.2) }

/-! ### The receipt-level `checkReceiptItemSanity`
(`receiptSanityChecks.ts`) -/

/-- A suggested correction of `checkReceiptItemSanity`. -/
structure CorrectionProposal where
  field : String
  originalValue : ℚ
  suggestedValue : ℚ
  reason : String
deriving Repr, DecidableEq

/-- Result shape of `checkReceiptItemSanity`. -/
structure SanityResultB where
  confidence : ℚ
  needsReview : Bool
  reviewReasons : List String
  suggestedCorrections : Option (List CorrectionProposal)
deriving Repr, DecidableEq

/-- The food keywords of rule 1. -/
def foodKeywords : List (List Char) :=
  [['b', 'u', 'r', 'g', 'e', 'r'], ['c', 'h', 'i', 'c', 'k', 'e', 'n'],
   ['s', 't', 'e', 'a', 'k'], ['l', 'a', 's', 'a', 'g', 'n', 'a'],
   ['s', 'm', 'o', 'o', 't', 'h', 'i', 'e'], ['c', 'o', 'f', 'f', 'e', 'e'],
   ['d', 'r', 'i', 'n', 'k'], ['c', 'h', 'i', 'p', 's']]

/-- Cents suffix of rule 3: `Math.round((x % 1) * 100)` for the
nonnegative amounts of the pipeline. -/
def centsOfFrac (q : ℚ) : ℤ := ⌊(q - ⌊q⌋) * 100 + 1/2⌋

def commonCents : List ℤ := [95, 90, 50, 99, 0]

/-- Maximum of a list of rationals, `Math.max(...)` over a non-empty
argument list (0 on the empty list, which the source never reaches). -/
def maxTotals : List ℚ → ℚ
  | [] => 0
  | h :: t => t.foldl max h

/-- Prepending the digit `2` to `u.toFixed(2)` and parsing the result,
in exact cents arithmetic. -/
def prependTwo (u : ℚ) : ℚ :=
  let cn := (jsRound2 u).toNat
  let ip := cn / 100
  ((2 * 10 ^ digitCount ip + ip : ℕ) : ℚ) + ((cn % 100 : ℕ) : ℚ) / 100

/-- Embeds `checkReceiptItemSanity`: confidence starts at 0.8 and every
rule lowers it through `min`; rule 1 may add a `CorrectionProposal`
(never applied here); `needsReview` fires on any reason or a final
confidence below 0.7. -/
def checkReceiptItemSanity (item : SanityItemArg) (context : ReceiptContextB) :
    SanityResultB :=
  let st0 : List String × ℚ × List CorrectionProposal := ([], 4/5, [])
  let st1 : List String × ℚ × List CorrectionProposal :=
    match item.unitPrice with
    | some u =>
        if u < 1 then
          let low := item.itemName.data.map Char.toLower
          let isFoodItem := foodKeywords.any (fun k => occursIn k low)
          if isFoodItem then
            let reasons := st0.1 ++ ["Unit price ($" ++ toFixedQ 2 u ++
              ") seems too low for a food item"]
            let conf := min st0.2.1 (1/2)
            let sugg :=
              if context.items.length > 0 then
                let otherItems := context.items.filter (fun i => i.lineTotal ≠ item.lineTotal)
                if otherItems.length > 0 then
                  let avgPrice := sumTotalsB otherItems / otherItems.length
                  if avgPrice > 10 && avgPrice < 50 then
                    let suggested := prependTwo u
                    if suggested > 10 && suggested < 50 then
                      st0.2.2 ++ [{ field := "unitPrice", originalValue := u, suggestedValue := suggested, reason := "Missing leading digit? " ++ toFixedQ 2 u ++ " → " ++ toFixedQ 2 suggested }]
                    else st0.2.2
                  else st0.2.2
                else st0.2.2
              else st0.2.2
            (reasons, conf, sugg)
          else st0
        else st0
    | Option.none => st0
  let st2 : List String × ℚ × List CorrectionProposal :=
    match context.receiptTotal with
    | some rt =>
        if rt ≠ 0 && item.lineTotal > rt * 11/10 then
          (st1.1 ++ ["Line total ($" ++ toFixedQ 2 item.lineTotal ++
            ") exceeds receipt total ($" ++ toFixedQ 2 rt ++ ")"],
            min st1.2.1 (3/10), st1.2.2)
        else st1
    | Option.none => st1
  let cents := centsOfFrac item.lineTotal
  let st3 : List String × ℚ × List CorrectionProposal :=
    if !commonCents.contains cents then
      if context.items.length > 0 then
        let otherItems := context.items.filter (fun i => i.lineTotal ≠ item.lineTotal)
        if otherItems.length > 0 then
          let otherCents := otherItems.map (fun i => centsOfFrac i.lineTotal)
          let hasCommonCents := otherCents.any (fun c => commonCents.contains c)
          if hasCommonCents then
            (st2.1 ++ ["Price ends with uncommon cents (." ++
              String.mk (Nat.toDigits 10 cents.toNat) ++ ") - may be OCR error"],
              min st2.2.1 (7/10), st2.2.2)
          else st2
        else st2
      else st2
    else st2
  let st4 : List String × ℚ × List CorrectionProposal :=
    if item.quantity > 6 then
      (st3.1 ++ ["Unusually high quantity (" ++
        String.mk (Nat.toDigits 10 item.quantity) ++ ") - may be OCR error"],
        min st3.2.1 (1/2), st3.2.2)
    else st3
  let st5 : List String × ℚ × List CorrectionProposal :=
    if context.items.length > 0 then
      let otherItems := context.items.filter (fun i => i.lineTotal ≠ item.lineTotal)
      if otherItems.length > 0 then
        let avgTotal := sumTotalsB otherItems / otherItems.length
        let maxTotal := maxTotals (otherItems.map CtxItemB.lineTotal)
        let stA :=
          if item.lineTotal > maxTotal * 2 then
            (st4.1 ++ ["Price ($" ++ toFixedQ 2 item.lineTotal ++
              ") is much higher than other items (max: $" ++ toFixedQ 2 maxTotal ++ ")"],
              min st4.2.1 (2/5), st4.2.2)
          else st4
        let magRat := item.lineTotal / avgTotal
        if magRat > 5 then
          (stA.1 ++ ["Price appears to be an order of magnitude off (" ++
            toFixedQ 1 magRat ++ "x average)"], min stA.2.1 (1/2), stA.2.2)
        else stA
      else st4
    else st4
  let st6 : List String × ℚ × List CorrectionProposal :=
    match item.unitPrice with
    | some u =>
        if item.quantity > 1 && u > 0 then
          let expectedTotal := (item.quantity : ℚ) * u
          let difference := |item.lineTotal - expectedTotal|
          if difference > 1/50 then
            (st5.1 ++ ["Quantity mismatch: " ++ String.mk (Nat.toDigits 10 item.quantity) ++
              " × $" ++ toFixedQ 2 u ++ " = $" ++ toFixedQ 2 expectedTotal ++
              ", but line total is $" ++ toFixedQ 2 item.lineTotal],
              min st5.2.1 (3/5), st5.2.2)
          else st5
        else st5
    | Option.none => st5
  { confidence := max 0 (min 1 st6.2.1)
    needsReview := !st6.1.isEmpty || decide (st6.2.1 < 7/10)
    reviewReasons := st6.1
    suggestedCorrections := if st6.2.2.isEmpty then Option.none else some st6.2.2 }

/-! ### The per-item sanity/auto-correction stage of `parseReceipt`
(`parseReceipt.ts`, the loop body of lines 132–177) -/

/-- The `correctionMetadata` record of `ParsedReceiptItem`. -/
structure CorrectionMetadata where
  originalValue : ℚ
  correctedValue : ℚ
  correctionType : CorrectionType
deriving Repr, DecidableEq

/-- The string value of a correction type, as interpolated into the
audit reason. -/
def correctionTypeStr : CorrectionType → String
  | CorrectionType.extra_digit => "extra_digit"
  | CorrectionType.missing_decimal => "missing_decimal"
  | CorrectionType.shifted_decimal => "shifted_decimal"
  | CorrectionType.none => "none"

/-- Record `ParsedReceiptItem` of `parseReceipt.ts`.  The optional `rawText`
and `reviewReasons` fields are modelled as always present (the parser
always sets them before the sanity stage runs). -/
structure ParsedReceiptItem where
  id : String
  name : String
  quantity : ℕ
  unitPrice : ℚ
  totalPrice : ℚ
  confidence : ℚ
  needsReview : Bool
  rawText : String
  reviewReasons : List String
  correctionMetadata : Option CorrectionMetadata
deriving Repr, DecidableEq

/-- Embeds one iteration of the sanity-check / auto-correction loop of
`parseReceipt`: run `checkItemSanity`, fold its confidence in with
`min`, and when the item is suspicious with a positive total and
`autoCorrectAmount` returns a correction above confidence 0.6, replace
the total, rederive the unit price, record `correctionMetadata`, add the
0.1 confidence bonus (capped at 1) and append the audit reason. -/
def parseReceiptSanityStep (item : ParsedReceiptItem) (context : ReceiptContextA) :
    ParsedReceiptItem :=
  let sanityResult := checkItemSanity
    { quantity := item.quantity, itemName := item.name,
      unitPrice := some item.unitPrice, lineTotal := item.totalPrice,
      originalLine := "" } context
  let item1 : ParsedReceiptItem :=
    { item with
        confidence := min item.confidence sanityResult.confidence
        needsReview := sanityResult.needsReview
        reviewReasons := sanityResult.reviewReasons }
  if sanityResult.isSuspicious && decide (item1.totalPrice > 0) then
    let correction := autoCorrectAmount item1.totalPrice context
    if correction.corrected && decide (correction.confidence > 3/5) then
      let oldTotal := item1.totalPrice
      { item1 with
          totalPrice := correction.correctedValue
          unitPrice :=
            if item1.quantity > 0 then correction.correctedValue / (item1.quantity : ℚ)
            else item1.unitPrice
          correctionMetadata := some
            { originalValue := correction.originalValue
              correctedValue := correction.correctedValue
              correctionType := correction.correctionType }
          confidence := min 1 (item1.confidence + 1/10)
          reviewReasons := item1.reviewReasons ++
            ["Auto-corrected " ++ correctionTypeStr correction.correctionType ++ ": " ++
              toFixedQ 2 oldTotal ++ " → " ++ toFixedQ 2 correction.correctedValue] }
    else item1
  else item1

/-! ### The receipt-aware scan service (`receiptService.ts`)

The OCR stage is external; the model covers the deterministic text
processing of `scanReceipt` after OCR (lines 356–557): normalization,
merchant/date/totals extraction, reconstruction, receipt-level sanity
checks and aggregation.  `generateId()` draws from `Math.random()` and
`Date.now()`; it is modelled as an injected supply `ids : ℕ → String`
consumed in call order — the k-th reconstructed item receives `ids k`
and the receipt id, generated last, is `ids n` for `n` items. -/

/-- Implements the newline split of the scan stage (structurally, keeping empty
segments as JavaScript does; the accumulator holds the current segment
reversed). -/
def splitNlAux : List Char → List Char → List (List Char)
  | [], acc => [acc.reverse]
  | c :: rest, acc =>
      if c = '\n' then acc.reverse :: splitNlAux rest []
      else splitNlAux rest (c :: acc)

def splitNl (s : String) : List (List Char) := splitNlAux s.data []

/-- Record `CanonicalReceiptItem` minus the identifier fields (`item_id`,
`receipt_id`), which carry the injected ids and never influence the
computation. -/
structure CanonicalItemCore where
  quantity : ℕ
  item_name : String
  unit_price : Option ℚ
  line_total : ℚ
  confidence_score : ℚ
  needs_review : Bool
  review_reasons : List String
  original_ocr_line : String
deriving Repr, DecidableEq

/-- Embeds one iteration of the sanity loop of `scanReceipt`
(lines 471–494): combine the sanity confidence with `min`, or the
review flags, append the reasons; suggested corrections are only
logged, never applied. -/
def scanSanityStep (context : ReceiptContextB) (item : CanonicalItemCore) :
    CanonicalItemCore :=
  let s := checkReceiptItemSanity
    { quantity := item.quantity, itemName := item.item_name,
      unitPrice := item.unit_price, lineTotal := item.line_total,
      originalLine := item.original_ocr_line } context
  { item with
      confidence_score := min item.confidence_score s.confidence
      needs_review := s.needsReview || item.needs_review
      review_reasons := item.review_reasons ++ s.reviewReasons }

/-- End-anchored price pattern `/\$?\s*(\d+[.,]\d{2})\s*$/`: the line
ends (after optional whitespace) in two digits, a decimal separator
(`.` or `,`) and at least one digit; the captured value in cents.  The
optional `\$?\s*` prefix of the source pattern never constrains the
match or the captured group. -/
def priceSuffixCents (s : List Char) : Option ℕ :=
  let r1 := s.reverse.dropWhile isWsC
  match r1 with
  | b :: a :: sep :: r2 =>
      if b.isDigit && a.isDigit && (sep = '.' || sep = ',') then
        let d := r2.takeWhile Char.isDigit
        if d.length = 0 then none
        else some (digitsVal d.reverse * 100 + digitsVal [a, b])
      else none
  | _ => none

/-- Word-bounded case-insensitive keyword search (for
`/\b(total|amount\s*due|balance|grand\s*total)\b/i` and
`/\b(tax|vat|gst|hst)\b/i`): the keyword occurs with no word character
on either side.  The input is already lower-cased. -/
def hasBoundedWordAux (w : List Char) : Option Char → List Char → Bool
  | _, [] => w.isPrefixOf []
  | prev, c :: rest =>
      ((match prev with | some p => !isWordC p | Option.none => true) &&
        w.isPrefixOf (c :: rest) && notWordAt ((c :: rest).drop w.length))
      || hasBoundedWordAux w (some c) rest

def hasBoundedWord (w : List Char) (s : List Char) : Bool :=
  hasBoundedWordAux w Option.none s

/-- Search for word-bounded `amount\s*due`. -/
def hasBoundedAmountDueAux : Option Char → List Char → Bool
  | _, [] => false
  | prev, c :: rest =>
      ((match prev with | some p => !isWordC p | Option.none => true) &&
        ['a', 'm', 'o', 'u', 'n', 't'].isPrefixOf (c :: rest) &&
        (let t := ((c :: rest).drop 6).dropWhile isWsC
         ['d', 'u', 'e'].isPrefixOf t && notWordAt (t.drop 3)))
      || hasBoundedAmountDueAux (some c) rest

/-- Search for word-bounded `grand\s*total` (subsumed by the bare
`total` alternative but kept for fidelity). -/
def hasBoundedGrandTotalAux : Option Char → List Char → Bool
  | _, [] => false
  | prev, c :: rest =>
      ((match prev with | some p => !isWordC p | Option.none => true) &&
        ['g', 'r', 'a', 'n', 'd'].isPrefixOf (c :: rest) &&
        (let t := ((c :: rest).drop 5).dropWhile isWsC
         ['t', 'o', 't', 'a', 'l'].isPrefixOf t && notWordAt (t.drop 5)))
      || hasBoundedGrandTotalAux (some c) rest

/-- Test of `/\b(total|amount\s*due|balance|grand\s*total)\b/i`. -/
def totalLineTest (s : List Char) : Bool :=
  let low := s.map Char.toLower
  hasBoundedWord ['t', 'o', 't', 'a', 'l'] low ||
  hasBoundedAmountDueAux Option.none low ||
  hasBoundedWord ['b', 'a', 'l', 'a', 'n', 'c', 'e'] low ||
  hasBoundedGrandTotalAux Option.none low

/-- Search for `sub\s*-?\s*total` (no word boundaries). -/
def subTotalGapAux : List Char → Bool
  | [] => false
  | c :: rest =>
      (['s', 'u', 'b'].isPrefixOf (c :: rest) &&
        (let t1 := ((c :: rest).drop 3).dropWhile isWsC
         let t2 := match t1 with | '-' :: t => t.dropWhile isWsC | t => t
         ['t', 'o', 't', 'a', 'l'].isPrefixOf t2))
      || subTotalGapAux rest

/-- Test of `/sub\s*-?\s*total|subtotal/i` (the second alternative is
subsumed by the first). -/
def subtotalLineTest (s : List Char) : Bool :=
  subTotalGapAux (s.map Char.toLower)

/-- Test of `/\b(tax|vat|gst|hst)\b/i`. -/
def taxLineTest (s : List Char) : Bool :=
  let low := s.map Char.toLower
  hasBoundedWord ['t', 'a', 'x'] low ||
  hasBoundedWord ['v', 'a', 't'] low ||
  hasBoundedWord ['g', 's', 't'] low ||
  hasBoundedWord ['h', 's', 't'] low

/-- One alternative of the date pattern: `\d{a,b}` `sep` `\d{c,d}` `sep`
`\d{e,f}` at the head of the input, with greedy digit groups and the
separator class `[\/\-\.]`.  Greedy means the group takes as many
digits as available up to its maximum; a shorter take would leave a
digit where the separator must stand, so no backtracking is needed. -/
def dateAltAt (lo1 hi1 lo2 hi2 lo3 hi3 : ℕ) (s : List Char) : Bool :=
  let d1 := (s.takeWhile Char.isDigit).length
  let t1 := min d1 hi1
  if d1 < lo1 || d1 > hi1 then false
  else match s.drop t1 with
    | sep1 :: s1 =>
        if sep1 = '/' || sep1 = '-' || sep1 = '.' then
          let d2 := (s1.takeWhile Char.isDigit).length
          let t2 := min d2 hi2
          if d2 < lo2 || d2 > hi2 then false
          else match s1.drop t2 with
            | sep2 :: s2 =>
                if sep2 = '/' || sep2 = '-' || sep2 = '.' then
                  let d3 := (s2.takeWhile Char.isDigit).length
                  decide (lo3 ≤ d3 && lo3 ≤ hi3)
                else false
            | [] => false
        else false
    | [] => false

/-- Test of the date pattern
`/(\d{1,2}[\/\-\.]\d{1,2}[\/\-\.]\d{2,4})|(\d{2,4}[\/\-\.]\d{1,2}[\/\-\.]\d{1,2})/`
(the model needs only whether a match exists, because a matching line is
consumed as the date and the claims never inspect the date text;
trailing digit groups have no boundary requirement, so only minimum
lengths matter at the end). -/
def dateTestAux : List Char → Bool
  | [] => false
  | c :: rest =>
      dateAltAt 1 2 1 2 2 4 (c :: rest) || dateAltAt 2 4 1 2 1 2 (c :: rest)
        || dateTestAux rest

def dateTest (s : List Char) : Bool := dateTestAux s

/-- Accumulator of the line-parsing loop of `scanReceipt`
(lines 396–448): the extracted date and totals plus the reconstructed
items in push order, id-free. -/
structure ScanParseState where
  date : Option String
  subtotal : Option ℚ
  tax : Option ℚ
  total : Option ℚ
  items : List CanonicalItemCore
deriving Repr, DecidableEq

/-- One iteration of the line-parsing loop of `scanReceipt`. -/
def scanParseLine (st : ScanParseState) (nline : NormalizedLine) : ScanParseState :=
  let line := nline.normalized.data
  if dateTest line && st.date.isNone then
    { st with date := some nline.normalized }
  else if subtotalLineTest line then
    match priceSuffixCents line with
    | some c => { st with subtotal := some ((c : ℚ) / 100) }
    | Option.none => st
  else if taxLineTest line then
    match priceSuffixCents line with
    | some c => { st with tax := some ((c : ℚ) / 100) }
    | Option.none => st
  else if totalLineTest line then
    match priceSuffixCents line with
    | some c => { st with total := some ((c : ℚ) / 100) }
    | Option.none => st
  else
    match reconstructReceiptLine nline.normalized nline.original with
    | some r =>
        { st with items := st.items ++
            [{ quantity := r.quantity, item_name := r.itemName,
               unit_price := r.unitPrice, line_total := r.lineTotal,
               confidence_score := r.confidence, needs_review := r.needsReview,
               review_reasons := r.reviewReasons,
               original_ocr_line := nline.original }] }
    | Option.none => st

/-- The `date` capture of the source stores `dateMatch[0]`, the matched
substring; the model stores the whole normalized line instead.  The
claims never inspect the stored text, and the capture is deterministic
either way. -/
def scanParseLines (lines : List NormalizedLine) : ScanParseState :=
  lines.foldl scanParseLine
    { date := Option.none, subtotal := Option.none, tax := Option.none,
      total := Option.none, items := [] }

/-- Merchant extraction (lines 385–393): the first of the first three
normalized lines that has no trailing price and length in (3, 50). -/
def scanMerchant (lines : List NormalizedLine) : Option String :=
  ((lines.take 3).find? fun nl =>
    let line := nl.normalized.data
    !(priceSuffixCents line).isSome && decide (line.length > 3) &&
      decide (line.length < 50)).map NormalizedLine.normalized

/-- Output item shape of `scanReceipt` (`receipt.items` entries). -/
structure ScanOutItem where
  id : String
  name : String
  quantity : ℕ
  unitPrice : Option ℚ
  totalPrice : ℚ
  confidence : ℚ
  needsReview : Bool
  reviewReasons : List String
  rawText : String
deriving Repr, DecidableEq

/-- Output shape of `scanReceipt` (minus the document-detection fields,
which belong to the image stage outside this model). -/
structure ScanReceiptResult where
  success : Bool
  receiptId : String
  items : List ScanOutItem
  receiptConfidence : ℚ
  receiptNeedsReview : Bool
  merchant : Option String
  date : Option String
  subtotal : Option ℚ
  tax : Option ℚ
  total : Option ℚ
  message : Option String
deriving Repr, DecidableEq

/-- Attach the injected ids: the k-th item (in push order) receives
`ids (base + k)`, mirroring the per-push `generateId()` calls. -/
def attachIds (ids : ℕ → String) : ℕ → List CanonicalItemCore → List ScanOutItem
  | _, [] => []
  | k, item :: rest =>
      { id := ids k
        name := item.item_name
        quantity := item.quantity
        unitPrice := item.unit_price
        totalPrice := item.line_total
        confidence := item.confidence_score
        needsReview := item.needs_review
        reviewReasons := item.review_reasons
        rawText := item.original_ocr_line } :: attachIds ids (k + 1) rest

/-- Embeds the deterministic post-OCR portion of `scanReceipt`
(lines 356–557): split and trim lines, normalize, extract
merchant/date/totals, reconstruct items, apply the receipt-level sanity
checks with the whole-receipt context, aggregate the overall confidence
and assemble the result.  `ocrText` is the text output of the OCR stage (the
engine-reported OCR confidence is only logged by the source, never used
in the result); `ids` is the `generateId()` supply. -/
def scanLines (ocrText : String) : List NormalizedLine :=
  (((splitNl ocrText).map (fun l => String.mk (trimChars l))).filter
    (fun l => l.data.length > 0)).map normalizeOcrLine

def scanState (ocrText : String) : ScanParseState := scanParseLines (scanLines ocrText)

/-- The whole-receipt context built from all reconstructed items
(lines 460–469). -/
def scanContextOf (ocrText : String) : ReceiptContextB :=
  { items := (scanState ocrText).items.map (fun i =>
      { quantity := i.quantity, itemName := i.item_name,
        unitPrice := i.unit_price, lineTotal := i.line_total })
    receiptTotal := (scanState ocrText).total
    subtotal := (scanState ocrText).subtotal }

/-- The items after the receipt-level sanity loop (lines 471–494). -/
def scanChecked (ocrText : String) : List CanonicalItemCore :=
  (scanState ocrText).items.map (scanSanityStep (scanContextOf ocrText))

/-- The aggregated overall confidence (lines 504–518): mean item
confidence weighted 0.5, plus 0.2 for any items, 0.15 for an extracted
total and 0.15 for the items' sum reconciling with it within $2, capped
at 1. -/
def scanOverallConfidence (ocrText : String) : ℚ :=
  min 1 ((if (scanChecked ocrText).length > 0 then
      ((scanChecked ocrText).map CanonicalItemCore.confidence_score).sum /
        (scanChecked ocrText).length
    else 0) * (1/2) +
    (if (scanChecked ocrText).length > 0 then 1/5 else 0) +
    (if (scanState ocrText).total.isSome then 3/20 else 0) +
    (if (scanState ocrText).total.isSome &&
        decide (|((scanChecked ocrText).map CanonicalItemCore.line_total).sum -
          (scanState ocrText).total.getD 0| < 2) then 3/20 else 0))

def scanReceiptFromText (ocrText : String) (ids : ℕ → String) :
    ScanReceiptResult :=
  { success := (scanChecked ocrText).length > 0
    receiptId := ids (scanChecked ocrText).length
    items := attachIds ids 0 (scanChecked ocrText)
    receiptConfidence := scanOverallConfidence ocrText
    receiptNeedsReview := (scanChecked ocrText).any CanonicalItemCore.needs_review ||
      (scanChecked ocrText).isEmpty
    merchant := scanMerchant (scanLines ocrText)
    date := (scanState ocrText).date
    subtotal := (scanState ocrText).subtotal
    tax := (scanState ocrText).tax
    total := (scanState ocrText).total
    message :=
      if (scanChecked ocrText).length = 0 then
        some "No items detected. Please review manually."
      else Option.none }

/-! ### Document detection and cropping (`detectAndCropReceipt.ts`)

The imaging backend (`sharp`) is external to the repository; its calls
are modelled as an oracle of `Except` results so the error-handling
structure of the source can be followed exactly.  Buffers are opaque
tags.  The lazy `sharp` pipeline (resize, grayscale, normalise, sharpen)
performs no work until a buffer is demanded inside
`smartCropForThermalReceipt`, so its possible failure is part of the
`cropResize` oracle entry. -/

/-- Error shape of the service layer: `createError` attaches a
`statusCode`, plain backend exceptions have none. -/
structure PipeErr where
  message : String
  statusCode : Option ℕ
deriving Repr, DecidableEq

/-- The `strategy` values of `ReceiptDetectionResult`. -/
inductive CropStrategy where
  | perspective_warp
  | bounding_box
  | center_crop
  | fallback
deriving Repr, DecidableEq

/-- Record `ReceiptDetectionResult` (the `croppedBuffer` is an opaque tag;
the `metadata` field carries no logic and is omitted). -/
structure ReceiptDetectionResult where
  success : Bool
  documentDetected : Bool
  buffer : ℕ
  width : ℕ
  height : ℕ
  strategy : CropStrategy
  confidence : ℚ
deriving Repr, DecidableEq

/-- Oracle for the imaging calls of `detectAndCropReceipt`:
`metadataDims` is `sharp(imageBuffer).metadata()`; `cropResize` is the
extract/resize/`toBuffer` work of `smartCropForThermalReceipt`;
`innerResize` is the catch-branch resize of the processed image inside
that function; `fallbackResize` is the outer-catch resize of the original
buffer.  Each yields `(buffer, width, height)` or fails. -/
structure ImageOpsOracle where
  metadataDims : Except PipeErr (ℕ × ℕ)
  cropResize : Except PipeErr (ℕ × ℕ × ℕ)
  innerResize : Except PipeErr (ℕ × ℕ × ℕ)
  fallbackResize : Except PipeErr (ℕ × ℕ × ℕ)
deriving Repr

/-- Embeds `smartCropForThermalReceipt`: on success a `center_crop`
result at confidence 0.65 with `documentDetected := false` (heuristic,
not true detection); if the crop fails, its own catch resizes and
returns a `fallback` result at confidence 0.3; if that resize also
fails the error escapes to the caller. -/
def smartCropForThermalReceipt (ops : ImageOpsOracle) :
    Except PipeErr ReceiptDetectionResult :=
  match ops.cropResize with
  | Except.ok (buf, w, h) =>
      Except.ok { success := true, documentDetected := false, buffer := buf, width := w, height := h, strategy := CropStrategy.center_crop, confidence := 13/20 }
  | Except.error _ =>
      match ops.innerResize with
      | Except.ok (buf, w, h) =>
          Except.ok { success := true, documentDetected := false, buffer := buf, width := w, height := h, strategy := CropStrategy.fallback, confidence := 3/10 }
      | Except.error e => Except.error e

/-- Embeds `detectAndCropReceipt`: read the metadata, reject zero
dimensions with a 400 `createError`, run the thermal smart crop, and in
the catch re-throw errors that carry a `statusCode` while turning
anything else into the final fallback — the original image resized to
the target width, `documentDetected := false`, strategy `fallback`,
confidence 0.3. -/
def detectAndCropReceipt (ops : ImageOpsOracle) :
    Except PipeErr ReceiptDetectionResult :=
  let body : Except PipeErr ReceiptDetectionResult :=
    match ops.metadataDims with
    | Except.error e => Except.error e
    | Except.ok (w, h) =>
        if w = 0 || h = 0 then
          Except.error { message := "Invalid image dimensions", statusCode := some 400 }
        else smartCropForThermalReceipt ops
  match body with
  | Except.ok r => Except.ok r
  | Except.error e =>
      if e.statusCode.isSome then Except.error e
      else
        match ops.fallbackResize with
        | Except.ok (buf, w, h) =>
            Except.ok { success := true, documentDetected := false, buffer := buf, width := w, height := h, strategy := CropStrategy.fallback, confidence := 3/10 }
        | Except.error e2 => Except.error e2

/-! ## Lemmas -/

theorem tryExtraDigit_spec (value avg med : ℚ) (r : CorrectionResult)
    (h : tryExtraDigit value avg med = some r) :
    r.corrected = true ∧ r.originalValue = value ∧
    r.correctionType = CorrectionType.extra_digit ∧ r.confidence = 7/10 ∧
    |r.correctedValue - med| < |value - med| := by
  unfold tryExtraDigit at h
  dsimp only at h
  split_ifs at h with h1 h2 h3
  · cases h
    simp only [Bool.and_eq_true, decide_eq_true_eq] at h3
    exact ⟨rfl, rfl, rfl, rfl, h3.2⟩

theorem tryMissingDecimal_spec (value avg med : ℚ) (r : CorrectionResult)
    (h : tryMissingDecimal value avg med = some r) :
    r.corrected = true ∧ r.originalValue = value ∧
    r.correctionType = CorrectionType.missing_decimal ∧ r.confidence = 3/5 ∧
    |r.correctedValue - med| < |value - med| := by
  unfold tryMissingDecimal at h
  dsimp only at h
  split_ifs at h with h1 h2 h3
  · cases h
    simp only [Bool.and_eq_true, decide_eq_true_eq] at h3
    exact ⟨rfl, rfl, rfl, rfl, h3.2⟩

theorem tryShiftedDecimal_spec (value avg med : ℚ) (r : CorrectionResult)
    (h : tryShiftedDecimal value avg med = some r) :
    r.corrected = true ∧ r.originalValue = value ∧
    r.correctionType = CorrectionType.shifted_decimal ∧ r.confidence = 1/2 ∧
    |r.correctedValue - med| < |value - med| := by
  unfold tryShiftedDecimal at h
  dsimp only at h
  split_ifs at h with h1 h2
  · cases h
    simp only [Bool.and_eq_true, decide_eq_true_eq] at h2
    exact ⟨rfl, rfl, rfl, rfl, h2.2⟩

/-- Shorthand for the mean of a context-item list. -/
def meanTotalsA (others : List CtxItemA) : ℚ := sumTotalsA others / others.length

/-- Shorthand for the median the source computes on a context-item
list. -/
def medTotalsA (others : List CtxItemA) : ℚ :=
  medianOfTotals (others.map CtxItemA.lineTotal)

/-- Function `autoCorrectCore` forwards the first strategy that fires, in source
order, and falls through to the "none" result. -/
theorem autoCorrectCore_cases (value : ℚ) (others : List CtxItemA) :
    (tryExtraDigit value (meanTotalsA others) (medTotalsA others) =
        some (autoCorrectCore value others)) ∨
    (tryExtraDigit value (meanTotalsA others) (medTotalsA others) = Option.none ∧
      tryMissingDecimal value (meanTotalsA others) (medTotalsA others) =
        some (autoCorrectCore value others)) ∨
    (tryExtraDigit value (meanTotalsA others) (medTotalsA others) = Option.none ∧
      tryMissingDecimal value (meanTotalsA others) (medTotalsA others) = Option.none ∧
      tryShiftedDecimal value (meanTotalsA others) (medTotalsA others) =
        some (autoCorrectCore value others)) ∨
    (tryExtraDigit value (meanTotalsA others) (medTotalsA others) = Option.none ∧
      tryMissingDecimal value (meanTotalsA others) (medTotalsA others) = Option.none ∧
      tryShiftedDecimal value (meanTotalsA others) (medTotalsA others) = Option.none ∧
      autoCorrectCore value others = noCorrectionRes value) := by
  rcases hE : tryExtraDigit value (meanTotalsA others) (medTotalsA others) with _ | rE
  · rcases hM : tryMissingDecimal value (meanTotalsA others) (medTotalsA others) with _ | rM
    · rcases hS : tryShiftedDecimal value (meanTotalsA others) (medTotalsA others) with _ | rS
      · refine Or.inr (Or.inr (Or.inr ⟨rfl, rfl, rfl, ?_⟩))
        unfold autoCorrectCore
        unfold meanTotalsA medTotalsA at hE hM hS
        rw [hE, hM, hS]
      · refine Or.inr (Or.inr (Or.inl ⟨rfl, rfl, ?_⟩))
        unfold autoCorrectCore
        unfold meanTotalsA medTotalsA at hE hM hS
        rw [hE, hM, hS]
    · refine Or.inr (Or.inl ⟨rfl, ?_⟩)
      unfold autoCorrectCore
      unfold meanTotalsA medTotalsA at hE hM
      rw [hE, hM]
  · refine Or.inl ?_
    unfold autoCorrectCore
    unfold meanTotalsA medTotalsA at hE
    rw [hE]

/-- Every run of `autoCorrectAmount` either short-circuits to the
"none" result because the context has no (other) items, or forwards
the strategy chain computed against the mean and median of the other
items. -/
theorem autoCorrect_cases (value : ℚ) (context : ReceiptContextA) :
    ((context.items.length = 0 ∨
        (context.items.filter (fun i => i.lineTotal ≠ value)).length = 0) ∧
      autoCorrectAmount value context = noCorrectionRes value) ∨
    ((context.items.filter (fun i => i.lineTotal ≠ value)).length ≠ 0 ∧
      autoCorrectAmount value context =
        autoCorrectCore value (context.items.filter (fun i => i.lineTotal ≠ value))) := by
  unfold autoCorrectAmount
  split_ifs with h1 h2
  · exact Or.inl ⟨Or.inl h1, rfl⟩
  · exact Or.inl ⟨Or.inr h2, rfl⟩
  · exact Or.inr ⟨h2, rfl⟩

theorem autoCorrectCore_originalValue (value : ℚ) (others : List CtxItemA) :
    (autoCorrectCore value others).originalValue = value := by
  rcases autoCorrectCore_cases value others with h | ⟨_, h⟩ | ⟨_, _, h⟩ | ⟨_, _, _, h⟩
  · exact (tryExtraDigit_spec _ _ _ _ h).2.1
  · exact (tryMissingDecimal_spec _ _ _ _ h).2.1
  · exact (tryShiftedDecimal_spec _ _ _ _ h).2.1
  · rw [h]; rfl

theorem autoCorrect_originalValue (value : ℚ) (context : ReceiptContextA) :
    (autoCorrectAmount value context).originalValue = value := by
  rcases autoCorrect_cases value context with ⟨_, h⟩ | ⟨_, h⟩
  · rw [h]; rfl
  · rw [h]; exact autoCorrectCore_originalValue _ _

/-- A returned correction strictly moves toward the median of the other
items' totals. -/
theorem autoCorrectCore_median_move (value : ℚ) (others : List CtxItemA)
    (h : (autoCorrectCore value others).corrected = true) :
    |(autoCorrectCore value others).correctedValue - medTotalsA others| <
      |value - medTotalsA others| := by
  rcases autoCorrectCore_cases value others with hc | ⟨_, hc⟩ | ⟨_, _, hc⟩ | ⟨_, _, _, hc⟩
  · exact (tryExtraDigit_spec _ _ _ _ hc).2.2.2.2
  · exact (tryMissingDecimal_spec _ _ _ _ hc).2.2.2.2
  · exact (tryShiftedDecimal_spec _ _ _ _ hc).2.2.2.2
  · rw [hc] at h; cases h

/-- A returned correction differs from the uncorrected value (its
distance to the median strictly shrank). -/
theorem autoCorrect_changes_value (value : ℚ) (context : ReceiptContextA)
    (h : (autoCorrectAmount value context).corrected = true) :
    (autoCorrectAmount value context).correctedValue ≠ value := by
  rcases autoCorrect_cases value context with ⟨_, hc⟩ | ⟨_, hc⟩
  · rw [hc] at h; cases h
  · rw [hc] at h ⊢
    have hlt := autoCorrectCore_median_move value _ h
    intro heq
    rw [heq] at hlt
    exact lt_irrefl _ hlt

/-! ## Claim theorems -/

/-- Claim C6: `autoCorrectAmount` tries at most three strategies in the
fixed order extra_digit, missing_decimal, shifted_decimal with fixed
confidence values 0.7, 0.6, 0.5 respectively; a correction is returned
only if the absolute distance of the candidate value to the median of
the line totals of the other items is strictly smaller than the
distance of the uncorrected value to that median, and otherwise
(including when the context has no other items) it returns
corrected = false with correctionType "none" and confidence 0. -/
theorem autoCorrectAmount_contract (value : ℚ) (context : ReceiptContextA) :
    ((autoCorrectAmount value context).corrected = false →
      (autoCorrectAmount value context).correctionType = CorrectionType.none ∧
      (autoCorrectAmount value context).confidence = 0 ∧
      (autoCorrectAmount value context).correctedValue = value) ∧
    (context.items.filter (fun i => i.lineTotal ≠ value) = [] →
      (autoCorrectAmount value context).corrected = false) ∧
    ((autoCorrectAmount value context).corrected = true →
      |(autoCorrectAmount value context).correctedValue -
          medTotalsA (context.items.filter (fun i => i.lineTotal ≠ value))| <
        |value - medTotalsA (context.items.filter (fun i => i.lineTotal ≠ value))| ∧
      (((autoCorrectAmount value context).correctionType = CorrectionType.extra_digit ∧
          (autoCorrectAmount value context).confidence = 7/10) ∨
       ((autoCorrectAmount value context).correctionType = CorrectionType.missing_decimal ∧
          (autoCorrectAmount value context).confidence = 3/5) ∨
       ((autoCorrectAmount value context).correctionType = CorrectionType.shifted_decimal ∧
          (autoCorrectAmount value context).confidence = 1/2))) ∧
    (∀ r1, tryExtraDigit value
        (meanTotalsA (context.items.filter (fun i => i.lineTotal ≠ value)))
        (medTotalsA (context.items.filter (fun i => i.lineTotal ≠ value))) = some r1 →
      context.items.filter (fun i => i.lineTotal ≠ value) ≠ [] →
      autoCorrectAmount value context = r1) := by
  refine ⟨?_, ?_, ?_, ?_⟩
  · intro h
    rcases autoCorrect_cases value context with ⟨_, hc⟩ | ⟨_, hc⟩
    · rw [hc]; exact ⟨rfl, rfl, rfl⟩
    · rw [hc] at h ⊢
      rcases autoCorrectCore_cases value _ with h1 | ⟨_, h1⟩ | ⟨_, _, h1⟩ | ⟨_, _, _, h1⟩
      · have ht := (tryExtraDigit_spec _ _ _ _ h1).1; rw [h] at ht; cases ht
      · have ht := (tryMissingDecimal_spec _ _ _ _ h1).1; rw [h] at ht; cases ht
      · have ht := (tryShiftedDecimal_spec _ _ _ _ h1).1; rw [h] at ht; cases ht
      · rw [h1]; exact ⟨rfl, rfl, rfl⟩
  · intro h0
    rcases autoCorrect_cases value context with ⟨_, hc⟩ | ⟨hlen, _⟩
    · rw [hc]; rfl
    · exact absurd (by rw [h0]; rfl) hlen
  · intro h
    rcases autoCorrect_cases value context with ⟨_, hc⟩ | ⟨_, hc⟩
    · rw [hc] at h; cases h
    · rw [hc] at h ⊢
      refine ⟨autoCorrectCore_median_move _ _ h, ?_⟩
      rcases autoCorrectCore_cases value _ with h1 | ⟨_, h1⟩ | ⟨_, _, h1⟩ | ⟨_, _, _, h1⟩
      · exact Or.inl ⟨(tryExtraDigit_spec _ _ _ _ h1).2.2.1,
          (tryExtraDigit_spec _ _ _ _ h1).2.2.2.1⟩
      · exact Or.inr (Or.inl ⟨(tryMissingDecimal_spec _ _ _ _ h1).2.2.1,
          (tryMissingDecimal_spec _ _ _ _ h1).2.2.2.1⟩)
      · exact Or.inr (Or.inr ⟨(tryShiftedDecimal_spec _ _ _ _ h1).2.2.1,
          (tryShiftedDecimal_spec _ _ _ _ h1).2.2.2.1⟩)
      · rw [h1] at h; cases h
  · intro r1 hE hne
    rcases autoCorrect_cases value context with ⟨hcond, _⟩ | ⟨_, hc⟩
    · rcases hcond with h1 | h2
      · have : context.items = [] := List.length_eq_zero.mp h1
        exact absurd (by rw [this]; rfl) hne
      · exact absurd (List.length_eq_zero.mp h2) hne
    · rw [hc]
      rcases autoCorrectCore_cases value
        (context.items.filter (fun i => i.lineTotal ≠ value)) with
        h1 | ⟨h1, _⟩ | ⟨h1, _, _⟩ | ⟨h1, _, _, _⟩
      · rw [hE] at h1; exact (Option.some.inj h1).symm
      · rw [hE] at h1; cases h1
      · rw [hE] at h1; cases h1
      · rw [hE] at h1; cases h1

/-- Context of a single item whose total equals the value under
correction (so that no other items remain). -/
def soleItemCtx : ReceiptContextA :=
  { items := [{ lineTotal := 5, quantity := 1, unitPrice := some 5 }],
    receiptTotal := Option.none, subtotal := Option.none }

/-- Witness for C6: at a context whose only item carries the value
itself, the `corrected = false` branch fires and yields the "none"
result with confidence 0. -/
theorem autoCorrectAmount_contract_w :
    (autoCorrectAmount 5 soleItemCtx).corrected = false ∧
    ((autoCorrectAmount 5 soleItemCtx).correctionType = CorrectionType.none ∧
     (autoCorrectAmount 5 soleItemCtx).confidence = 0 ∧
     (autoCorrectAmount 5 soleItemCtx).correctedValue = 5) :=
  ⟨by decide, (autoCorrectAmount_contract 5 soleItemCtx).1 (by decide)⟩

/-- The `checkItemSanity` argument `parseReceipt` builds for an item
(the `originalLine` is unavailable in the server context). -/
def sanityArgOf (item : ParsedReceiptItem) : SanityItemArg :=
  { quantity := item.quantity, itemName := item.name, unitPrice := some item.unitPrice, lineTotal := item.totalPrice, originalLine := "" }

/-- Claim C1: corrections are never applied silently.  `checkItemSanity`
and `autoCorrectAmount` are pure result-returning functions in this
embedding, and the `parseReceipt` sanity stage replaces the `totalPrice`
of an item only when the sanity check marked it suspicious, the total
is positive and `autoCorrectAmount` returned `corrected = true` with
confidence above 0.6 — and every such replacement records a
`correctionMetadata` entry holding the original and the corrected
value. -/
theorem parseStep_corrections_audited (item : ParsedReceiptItem)
    (context : ReceiptContextA) :
    ((parseReceiptSanityStep item context).totalPrice ≠ item.totalPrice →
      (parseReceiptSanityStep item context).correctionMetadata = some
        { originalValue := item.totalPrice
          correctedValue := (parseReceiptSanityStep item context).totalPrice
          correctionType := (autoCorrectAmount item.totalPrice context).correctionType }) ∧
    (¬((checkItemSanity (sanityArgOf item) context).isSuspicious = true ∧
        item.totalPrice > 0 ∧
        (autoCorrectAmount item.totalPrice context).corrected = true ∧
        (autoCorrectAmount item.totalPrice context).confidence > 3/5) →
      (parseReceiptSanityStep item context).totalPrice = item.totalPrice ∧
      (parseReceiptSanityStep item context).correctionMetadata =
        item.correctionMetadata) ∧
    (((checkItemSanity (sanityArgOf item) context).isSuspicious = true ∧
        item.totalPrice > 0 ∧
        (autoCorrectAmount item.totalPrice context).corrected = true ∧
        (autoCorrectAmount item.totalPrice context).confidence > 3/5) →
      (parseReceiptSanityStep item context).totalPrice =
        (autoCorrectAmount item.totalPrice context).correctedValue ∧
      (parseReceiptSanityStep item context).correctionMetadata = some
        { originalValue := item.totalPrice
          correctedValue := (autoCorrectAmount item.totalPrice context).correctedValue
          correctionType := (autoCorrectAmount item.totalPrice context).correctionType }) := by
  simp only [parseReceiptSanityStep]
  split_ifs with hg1 hg2 hq
  · simp only [Bool.and_eq_true, decide_eq_true_eq] at hg1 hg2
    refine ⟨?_, ?_, ?_⟩
    · intro _
      rw [autoCorrect_originalValue]
    · intro hng
      exact absurd ⟨hg1.1, hg1.2, hg2.1, hg2.2⟩ hng
    · intro _
      exact ⟨rfl, by rw [autoCorrect_originalValue]⟩
  · simp only [Bool.and_eq_true, decide_eq_true_eq] at hg1 hg2
    refine ⟨?_, ?_, ?_⟩
    · intro _
      rw [autoCorrect_originalValue]
    · intro hng
      exact absurd ⟨hg1.1, hg1.2, hg2.1, hg2.2⟩ hng
    · intro _
      exact ⟨rfl, by rw [autoCorrect_originalValue]⟩
  · refine ⟨?_, ?_, ?_⟩
    · intro hne
      exact absurd rfl hne
    · intro _
      exact ⟨rfl, rfl⟩
    · intro hg
      simp only [Bool.and_eq_true, decide_eq_true_eq] at hg2
      exact absurd ⟨hg.2.2.1, hg.2.2.2⟩ hg2
  · refine ⟨?_, ?_, ?_⟩
    · intro hne
      exact absurd rfl hne
    · intro _
      exact ⟨rfl, rfl⟩
    · intro hg
      simp only [Bool.and_eq_true, decide_eq_true_eq] at hg1
      exact absurd ⟨hg.1, hg.2.1⟩ hg1

/-- A context of two cheap items against which a 529.95 total is an
extra-digit outlier (used by several concrete instances below). -/
def outlierCtx : ReceiptContextA :=
  { items := [⟨52995/100, 12, some (52995/1200)⟩, ⟨20, 1, some 20⟩, ⟨20, 1, some 20⟩],
    receiptTotal := Option.none, subtotal := Option.none }

/-- A parsed item whose 529.95 total gets auto-corrected to 29.95
against `outlierCtx`. -/
def outlierItem : ParsedReceiptItem :=
  { id := "", name := "Widget Thing", quantity := 12, unitPrice := 52995/1200,
    totalPrice := 52995/100, confidence := 1/2, needsReview := true,
    rawText := "12x Widget Thing 529.95",
    reviewReasons := ["Unusually high quantity: 12"],
    correctionMetadata := Option.none }

/-- Witness for C1: the auto-corrected outlier item carries the full
audit record. -/
theorem parseStep_corrections_audited_w :
    (parseReceiptSanityStep outlierItem outlierCtx).totalPrice ≠
        outlierItem.totalPrice ∧
    (parseReceiptSanityStep outlierItem outlierCtx).correctionMetadata = some
      { originalValue := outlierItem.totalPrice
        correctedValue := (parseReceiptSanityStep outlierItem outlierCtx).totalPrice
        correctionType := (autoCorrectAmount outlierItem.totalPrice outlierCtx).correctionType } :=
  ⟨by decide, (parseStep_corrections_audited outlierItem outlierCtx).1 (by decide)⟩

theorem checkItemSanity_conf_le_one (item : SanityItemArg) (context : ReceiptContextA) :
    (checkItemSanity item context).confidence ≤ 1 := by
  simp only [checkItemSanity]
  exact max_le (by norm_num) (min_le_left _ _)

/-- Counterexample to claim C3: the auto-correction bonus of
`parseReceipt` raises the confidence of the outlier item from 0.5 to 0.6,
so confidence after the sanity stage is not always ≤ confidence
before it. -/
theorem parse_sanity_confidence_raised_cex :
    outlierItem.confidence = 1/2 ∧
    (parseReceiptSanityStep outlierItem outlierCtx).confidence = 3/5 ∧
    outlierItem.confidence < (parseReceiptSanityStep outlierItem outlierCtx).confidence := by
  decide

/-- Claim C3 (amended): confidence is monotone under sanity-checking in
`scanReceipt` (min-combination only), and in `parseReceipt` whenever no
auto-correction is applied (the total is unchanged); when a correction
is applied, the stage may raise confidence by at most the 0.1 bonus,
capped at 1. -/
theorem sanity_stage_confidence_bounds (core : CanonicalItemCore)
    (ctxB : ReceiptContextB) (item : ParsedReceiptItem) (ctxA : ReceiptContextA) :
    (scanSanityStep ctxB core).confidence_score ≤ core.confidence_score ∧
    (parseReceiptSanityStep item ctxA).confidence ≤ min 1 (item.confidence + 1/10) ∧
    ((parseReceiptSanityStep item ctxA).totalPrice = item.totalPrice →
      (parseReceiptSanityStep item ctxA).confidence ≤ item.confidence) := by
  refine ⟨?_, ?_, ?_⟩
  · simp only [scanSanityStep]
    exact min_le_left _ _
  · simp only [parseReceiptSanityStep]
    split_ifs with hg1 hg2 hq
    · exact min_le_min le_rfl (add_le_add_right (min_le_left _ _) _)
    · exact min_le_min le_rfl (add_le_add_right (min_le_left _ _) _)
    · refine le_min ?_ ?_
      · exact (min_le_right _ _).trans (checkItemSanity_conf_le_one _ _)
      · exact (min_le_left _ _).trans (le_add_of_nonneg_right (by norm_num))
    · refine le_min ?_ ?_
      · exact (min_le_right _ _).trans (checkItemSanity_conf_le_one _ _)
      · exact (min_le_left _ _).trans (le_add_of_nonneg_right (by norm_num))
  · intro heq
    simp only [parseReceiptSanityStep] at heq ⊢
    split_ifs at heq ⊢ with hg1 hg2 hq
    · simp only [Bool.and_eq_true, decide_eq_true_eq] at hg2
      exact absurd heq (autoCorrect_changes_value _ _ hg2.1)
    · simp only [Bool.and_eq_true, decide_eq_true_eq] at hg2
      exact absurd heq (autoCorrect_changes_value _ _ hg2.1)
    · exact min_le_left _ _
    · exact min_le_left _ _

/-- A plain item and empty contexts for which the stage leaves the total
and confidence alone. -/
def plainItem : ParsedReceiptItem :=
  { id := "", name := "Tea", quantity := 1, unitPrice := 5, totalPrice := 5,
    confidence := 4/5, needsReview := false, rawText := "", reviewReasons := [],
    correctionMetadata := Option.none }

def plainCore : CanonicalItemCore :=
  { quantity := 1, item_name := "Tea", unit_price := some 5, line_total := 5,
    confidence_score := 4/5, needs_review := false, review_reasons := [],
    original_ocr_line := "Tea 5.00" }

def emptyCtxB : ReceiptContextB :=
  { items := [], receiptTotal := Option.none, subtotal := Option.none }

def emptyCtxA : ReceiptContextA :=
  { items := [], receiptTotal := Option.none, subtotal := Option.none }

/-- Witness for the amended C3 at a plain item: the stage leaves the
total unchanged and its confidence does not rise. -/
theorem sanity_stage_confidence_bounds_w :
    (scanSanityStep emptyCtxB plainCore).confidence_score ≤ plainCore.confidence_score ∧
    ((parseReceiptSanityStep plainItem emptyCtxA).totalPrice = plainItem.totalPrice ∧
      (parseReceiptSanityStep plainItem emptyCtxA).confidence ≤ plainItem.confidence) :=
  ⟨(sanity_stage_confidence_bounds plainCore emptyCtxB plainItem emptyCtxA).1,
   by decide,
   (sanity_stage_confidence_bounds plainCore emptyCtxB plainItem emptyCtxA).2.2 (by decide)⟩

/-- Claim C4: on the arithmetic mismatch line `"3x Soda 2.00 5.00"` the
reconstructor keeps the tokens in first-is-unit/last-is-total order
(quantity 3, unit price 2.00, line total 5.00 — no swap), flags
`needsReview`, and records a reason containing "mismatch". -/
theorem reconstruct_mismatch_flagged :
    (reconstructReceiptLine "3x Soda 2.00 5.00" "3x Soda 2.00 5.00").map
      (fun it => (it.quantity, it.unitPrice, it.lineTotal, it.needsReview,
        it.reviewReasons.any (fun r => occursIn "mismatch".data r.data))) =
    some (3, some 2, 5, true, true) := by decide

/-- Claim C5: the well-formed line `"2x Coffee 3.50 7.00"` reconstructs
to quantity 2, name "Coffee", unit price 3.50, line total 7.00, no
review flag and no review reasons. -/
theorem reconstruct_roundtrip_wellformed :
    reconstructReceiptLine "2x Coffee 3.50 7.00" "2x Coffee 3.50 7.00" =
      some { quantity := 2, itemName := "Coffee", unitPrice := some (7/2), lineTotal := 7, originalLine := "2x Coffee 3.50 7.00", confidence := 4/5, needsReview := false, reviewReasons := [] } := by
  decide

/-- Counterexample to claim C7: normalization is not idempotent — on
`"Item ab cd"` the first pass strips the trailing token `cd`, and a
second pass strips `ab` as well, so the second pass changes the text
and logs a change. -/
theorem normalize_second_pass_changes_cex :
    (normalizeOcrLine (normalizeOcrLine "Item ab cd").normalized).changes ≠ [] ∧
    (normalizeOcrLine (normalizeOcrLine "Item ab cd").normalized).normalized ≠
      (normalizeOcrLine "Item ab cd").normalized := by decide

/-- The fixpoint property claim C7 asserts, at one input. -/
abbrev normalizeStableAt (x : String) : Prop :=
  (normalizeOcrLine (normalizeOcrLine x).normalized).normalized =
      (normalizeOcrLine x).normalized ∧
    (normalizeOcrLine (normalizeOcrLine x).normalized).changes = []

/-- Claim C7 (amended): normalization is idempotent on the
example lines of the specification, but not on every input string — a second
pass can strip a further trailing one-or-two-letter garbage token (see
the counterexample on `"Item ab cd"`). -/
theorem normalize_idempotent_on_spec_lines :
    normalizeStableAt "2x Coffee 3.50 7.00" ∧ normalizeStableAt "Burger 12.50" ∧
    normalizeStableAt "3x Soda 2.00 5.00" ∧ normalizeStableAt "SUBTOTAL 45.00" ∧
    normalizeStableAt "Ix Coffee 3-50" := by decide

theorem recFinish_fields (q : ℕ) (name o : String) (col : Option ℚ × ℚ × ℚ × List String)
    (it : ReconstructedLine) (h : recFinish q name o col = some it) :
    it.quantity = q ∧ it.confidence = col.2.2.1 := by
  unfold recFinish at h
  split at h
  · exact Option.noConfusion h
  · injection h with h2
    rw [← h2]
    exact ⟨rfl, rfl⟩

theorem reconstruct_fields (n o : String) (it : ReconstructedLine)
    (h : reconstructReceiptLine n o = some it) :
    it.quantity = (recQtyData (trimChars n.data)).1 ∧
    it.confidence = (recColumnLogic (recQtyData (trimChars n.data)).1
      (recQtyData (trimChars n.data)).2.1 (recQtyData (trimChars n.data)).2.2.1
      ((pricesScan (trimChars n.data)).map (fun c => (c : ℚ) / 100))).2.2.1 := by
  unfold reconstructReceiptLine at h
  split at h
  · exact Option.noConfusion h
  · split at h
    · exact Option.noConfusion h
    · split at h
      · exact Option.noConfusion h
      · dsimp only at h
        split at h
        · exact Option.noConfusion h
        · exact recFinish_fields _ _ _ _ _ h

theorem recQtyData_quantity (line : List Char) :
    1 ≤ (recQtyData line).1 ∨ (qtyHeadMatch line).map Prod.fst = some 0 := by
  unfold recQtyData
  cases hq : qtyHeadMatch line with
  | none => exact Or.inl le_rfl
  | some p =>
      obtain ⟨v, k⟩ := p
      rcases Nat.eq_zero_or_pos v with hv | hv
      · subst hv
        exact Or.inr rfl
      · left
        dsimp only
        split_ifs <;> exact hv

theorem recQtyData_conf_le (line : List Char) : (recQtyData line).2.1 ≤ 4/5 := by
  unfold recQtyData
  cases qtyHeadMatch line with
  | none => exact le_rfl
  | some p =>
      obtain ⟨v, k⟩ := p
      dsimp only
      split_ifs
      · exact min_le_left _ _
      · exact le_rfl

theorem recColumnLogic_conf_le (q : ℕ) (conf : ℚ) (reasons : List String)
    (prices : List ℚ) : (recColumnLogic q conf reasons prices).2.2.1 ≤ conf := by
  unfold recColumnLogic
  rcases prices with _ | ⟨p, _ | ⟨q2, rest⟩⟩
  · exact le_rfl
  · exact le_rfl
  · dsimp only
    split_ifs
    · exact min_le_left _ _
    · exact le_rfl
    · exact le_rfl

/-- The base confidence 0.8 of line reconstruction is an upper bound:
the high-quantity and mismatch flags only lower it. -/
theorem reconstruct_conf_le (n o : String) (it : ReconstructedLine)
    (h : reconstructReceiptLine n o = some it) : it.confidence ≤ 4/5 := by
  rw [(reconstruct_fields n o it h).2]
  exact (recColumnLogic_conf_le _ _ _ _).trans (recQtyData_conf_le _)

/-- Counterexample to claim C8: the line `"0x Soda 5.00"` yields a
non-null item with quantity 0, violating the `quantity ≥ 1` data-model
invariant. -/
theorem reconstruct_zero_quantity_cex :
    (reconstructReceiptLine "0x Soda 5.00" "0x Soda 5.00").map
      ReconstructedLine.quantity = some 0 := by decide

/-- Claim C8 (amended): every non-null reconstructed item has
quantity ≥ 1 unless the line carries an explicit leading `0x` quantity
token, whose parsed value 0 is taken verbatim. -/
theorem reconstruct_quantity_pos_unless_zero_token (n o : String)
    (it : ReconstructedLine) (h : reconstructReceiptLine n o = some it) :
    1 ≤ it.quantity ∨ (qtyHeadMatch (trimChars n.data)).map Prod.fst = some 0 := by
  rw [(reconstruct_fields n o it h).1]
  exact recQtyData_quantity _

/-- The item the well-formed coffee line reconstructs to. -/
def coffeeItem : ReconstructedLine :=
  { quantity := 2, itemName := "Coffee", unitPrice := some (7/2), lineTotal := 7,
    originalLine := "2x Coffee 3.50 7.00", confidence := 4/5, needsReview := false,
    reviewReasons := [] }

/-- Witness for the amended C8 at the coffee line. -/
theorem reconstruct_quantity_pos_unless_zero_token_w :
    reconstructReceiptLine "2x Coffee 3.50 7.00" "2x Coffee 3.50 7.00" =
        some coffeeItem ∧
    (1 ≤ coffeeItem.quantity ∨
      (qtyHeadMatch (trimChars ("2x Coffee 3.50 7.00" : String).data)).map
        Prod.fst = some 0) :=
  ⟨by decide, reconstruct_quantity_pos_unless_zero_token "2x Coffee 3.50 7.00"
    "2x Coffee 3.50 7.00" coffeeItem (by decide)⟩

/-- Each line-parsing step preserves the 0.8 bound on the pushed items'
confidences: only reconstruction appends an item, at its reconstructed
confidence. -/
theorem scanParseLine_conf_bound (st : ScanParseState) (nl : NormalizedLine)
    (hinv : ∀ i ∈ st.items, i.confidence_score ≤ 4/5) :
    ∀ i ∈ (scanParseLine st nl).items, i.confidence_score ≤ 4/5 := by
  intro i hi
  unfold scanParseLine at hi
  dsimp only at hi
  repeat' split at hi
  all_goals try exact hinv i hi
  rename_i heq
  rcases List.mem_append.mp hi with h1 | h2
  · exact hinv i h1
  · rw [List.mem_singleton.mp h2]
    exact reconstruct_conf_le _ _ _ heq

theorem scanParseLines_conf_bound (lines : List NormalizedLine) :
    ∀ i ∈ (scanParseLines lines).items, i.confidence_score ≤ 4/5 := by
  unfold scanParseLines
  have main : ∀ (ls : List NormalizedLine) (st : ScanParseState),
      (∀ i ∈ st.items, i.confidence_score ≤ 4/5) →
      ∀ i ∈ (ls.foldl scanParseLine st).items, i.confidence_score ≤ 4/5 := by
    intro ls
    induction ls with
    | nil => intro st h; exact h
    | cons l t ih =>
        intro st h
        exact ih _ (scanParseLine_conf_bound st l h)
  exact main lines _ (by intro i hi; cases hi)

/-- Membership in the id-attached output list comes from a core item
with the same confidence. -/
theorem attachIds_mem_conf (ids : ℕ → String) :
    ∀ (k : ℕ) (l : List CanonicalItemCore) (it : ScanOutItem),
      it ∈ attachIds ids k l → ∃ c ∈ l, it.confidence = c.confidence_score := by
  intro k l
  induction l generalizing k with
  | nil => intro it hit; cases hit
  | cons c t ih =>
      intro it hit
      rcases List.mem_cons.mp hit with h | h
      · exact ⟨c, List.mem_cons_self c t, by rw [h]⟩
      · obtain ⟨c2, hc2, he⟩ := ih (k + 1) it h
        exact ⟨c2, List.mem_cons_of_mem c hc2, he⟩

/-- Claim C10: every item returned by the receipt-aware scan pipeline
has confidence at most 0.8 — reconstruction starts at base 0.8 and only
lowers it, and the sanity stage combines with `min`, so no item can
exceed 0.8 even when no rule fires. -/
theorem scan_item_confidence_le (ocrText : String) (ids : ℕ → String)
    (it : ScanOutItem) (h : it ∈ (scanReceiptFromText ocrText ids).items) :
    it.confidence ≤ 4/5 := by
  have hAtt : it ∈ attachIds ids 0 (scanChecked ocrText) := h
  obtain ⟨c, hc, heq⟩ := attachIds_mem_conf ids 0 _ it hAtt
  rw [heq]
  obtain ⟨c0, hc0, hmap⟩ := List.mem_map.mp hc
  rw [← hmap]
  have hstep : (scanSanityStep (scanContextOf ocrText) c0).confidence_score ≤
      c0.confidence_score := by
    simp only [scanSanityStep]
    exact min_le_left _ _
  exact hstep.trans (scanParseLines_conf_bound (scanLines ocrText) c0 hc0)

/-- Witness for C10: the single item scanned from `"Coffee 3.50"`. -/
def coffeeScanItem : ScanOutItem :=
  { id := "id", name := "Coffee", quantity := 1, unitPrice := Option.none,
    totalPrice := 7/2, confidence := 4/5, needsReview := false,
    reviewReasons := [], rawText := "Coffee 3.50" }

theorem scan_item_confidence_le_w :
    coffeeScanItem ∈ (scanReceiptFromText "Coffee 3.50" (fun _ => "id")).items ∧
    coffeeScanItem.confidence ≤ 4/5 :=
  ⟨by decide,
   scan_item_confidence_le "Coffee 3.50" (fun _ => "id") coffeeScanItem (by decide)⟩

/-- Item record `ScanOutItem` with the generated `id` erased. -/
structure ScanOutItemData where
  name : String
  quantity : ℕ
  unitPrice : Option ℚ
  totalPrice : ℚ
  confidence : ℚ
  needsReview : Bool
  reviewReasons : List String
  rawText : String
deriving Repr, DecidableEq

def eraseItemId (it : ScanOutItem) : ScanOutItemData :=
  { name := it.name, quantity := it.quantity, unitPrice := it.unitPrice, totalPrice := it.totalPrice, confidence := it.confidence, needsReview := it.needsReview, reviewReasons := it.reviewReasons, rawText := it.rawText }

/-- The id-free output data a core item determines. -/
def coreData (c : CanonicalItemCore) : ScanOutItemData :=
  { name := c.item_name, quantity := c.quantity, unitPrice := c.unit_price, totalPrice := c.line_total, confidence := c.confidence_score, needsReview := c.needs_review, reviewReasons := c.review_reasons, rawText := c.original_ocr_line }

/-- Result record `ScanReceiptResult` with the generated receipt and item ids
erased. -/
structure ScanResultData where
  success : Bool
  items : List ScanOutItemData
  receiptConfidence : ℚ
  receiptNeedsReview : Bool
  merchant : Option String
  date : Option String
  subtotal : Option ℚ
  tax : Option ℚ
  total : Option ℚ
  message : Option String
deriving Repr, DecidableEq

def eraseIds (r : ScanReceiptResult) : ScanResultData :=
  { success := r.success, items := r.items.map eraseItemId, receiptConfidence := r.receiptConfidence, receiptNeedsReview := r.receiptNeedsReview, merchant := r.merchant, date := r.date, subtotal := r.subtotal, tax := r.tax, total := r.total, message := r.message }

theorem attachIds_erase (ids : ℕ → String) :
    ∀ (k : ℕ) (l : List CanonicalItemCore),
      (attachIds ids k l).map eraseItemId = l.map coreData := by
  intro k l
  induction l generalizing k with
  | nil => rfl
  | cons c t ih =>
      show eraseItemId _ :: (attachIds ids (k + 1) t).map eraseItemId =
        coreData c :: t.map coreData
      rw [ih]
      rfl

/-- Counterexample to claim C2: with byte-identical OCR output, two
invocations draw different `generateId()` values (`Math.random()` /
`Date.now()`), so the two `ParsedReceipt` outputs differ — here in the
item and receipt id fields. -/
theorem scan_random_ids_cex :
    scanReceiptFromText "Coffee 3.50" (fun _ => "a") ≠
      scanReceiptFromText "Coffee 3.50" (fun _ => "b") := by decide

/-- Claim C2 (amended): given identical OCR text, the scan pipeline is
deterministic in every field except the generated ids — erasing the
receipt id and the per-item ids makes two runs with arbitrary id draws
equal. -/
theorem scan_deterministic_up_to_ids (ocrText : String) (f g : ℕ → String) :
    eraseIds (scanReceiptFromText ocrText f) =
      eraseIds (scanReceiptFromText ocrText g) := by
  unfold eraseIds scanReceiptFromText
  dsimp only
  rw [attachIds_erase, attachIds_erase]

/-- Oracle for a structurally valid image whose cropping work fails and
whose inner catch resize also fails, leaving the outer fallback. -/
def cropFailOps : ImageOpsOracle :=
  { metadataDims := Except.ok (800, 600),
    cropResize := Except.error { message := "extract failed", statusCode := Option.none },
    innerResize := Except.error { message := "resize failed", statusCode := Option.none },
    fallbackResize := Except.ok (7, 1200, 900) }

/-- Counterexample to claim C9: the failure path of
`detectAndCropReceipt` returns the fallback result with confidence 0.3,
not 0. -/
theorem detect_fallback_conf_cex :
    (detectAndCropReceipt cropFailOps).toOption.map
        (fun r => (r.strategy, r.documentDetected, r.confidence)) =
      some (CropStrategy.fallback, false, 3/10) ∧ (3/10 : ℚ) ≠ 0 := by decide

/-- Claim C9 (amended): for a structurally valid image (positive
metadata dimensions) whose cropping work fails internally,
`detectAndCropReceipt` propagates no error as long as its own fallback
imaging calls succeed, and each failure path returns the resized
original with strategy fallback, `documentDetected = false` and
confidence 0.3 — the source assigns 0.3, not 0, to the fallback. -/
theorem detect_crop_degrades (ops : ImageOpsOracle) (w h : ℕ) (e : PipeErr)
    (hm : ops.metadataDims = Except.ok (w, h)) (hw : w ≠ 0) (hh : h ≠ 0)
    (hc : ops.cropResize = Except.error e) :
    (∀ buf bw bh, ops.innerResize = Except.ok (buf, bw, bh) →
      detectAndCropReceipt ops = Except.ok
        { success := true, documentDetected := false, buffer := buf, width := bw, height := bh, strategy := CropStrategy.fallback, confidence := 3/10 }) ∧
    (∀ e2 buf bw bh, ops.innerResize = Except.error e2 →
      e2.statusCode = Option.none → ops.fallbackResize = Except.ok (buf, bw, bh) →
      detectAndCropReceipt ops = Except.ok
        { success := true, documentDetected := false, buffer := buf, width := bw, height := bh, strategy := CropStrategy.fallback, confidence := 3/10 }) := by
  constructor
  · intro buf bw bh hi
    unfold detectAndCropReceipt smartCropForThermalReceipt
    rw [hm, hc, hi]
    simp [hw, hh]
  · intro e2 buf bw bh hi hst hf
    unfold detectAndCropReceipt smartCropForThermalReceipt
    rw [hm, hc, hi, hf]
    simp [hw, hh, hst]

/-- Oracle whose inner catch resize succeeds. -/
def cropFailOps2 : ImageOpsOracle :=
  { metadataDims := Except.ok (800, 600),
    cropResize := Except.error { message := "extract failed", statusCode := Option.none },
    innerResize := Except.ok (5, 1200, 450),
    fallbackResize := Except.ok (7, 1200, 900) }

/-- Witness for the amended C9. -/
theorem detect_crop_degrades_w :
    detectAndCropReceipt cropFailOps2 = Except.ok
      { success := true, documentDetected := false, buffer := 5, width := 1200, height := 450, strategy := CropStrategy.fallback, confidence := 3/10 } :=
  (detect_crop_degrades cropFailOps2 800 600
    { message := "extract failed", statusCode := Option.none }
    rfl (by decide) (by decide) rfl).1 5 1200 450 rfl

end SplitBill
